import Mathlib

/-!
Shallow embedding of the csv2bufr value-resolution, scaling/validation and
row-driver engine (`csv2bufr/__init__.py`), with theorems checking the
natural-language specification against it.

Python scalars are modelled by the inductive `Value`: `None` as `Value.null`,
`int` as `Value.int : ℤ`, `float` as `Value.float : ℚ` (exact rational
arithmetic in place of IEEE doubles), `str` as `Value.str` and lists as
`Value.arr`.  Fallible Python code is modelled with `Except String`; the
per-thread global warnings list `_warnings_global[tidx]` is modelled by
returning the list of appended warnings alongside each result.
-/

namespace Csv2Bufr

/-- Numeric list elements.  Every list value in this program arises from an
`array:` expression or a replication-factor list, hence holds only numbers
(all `int` or all `float`). -/
inductive Prim where
  | pint (n : ℤ) : Prim
  | pfloat (q : ℚ) : Prim
deriving Repr, DecidableEq

/-- Python runtime values as they occur in this program. -/
inductive Value where
  | null : Value
  | int (n : ℤ) : Value
  | float (q : ℚ) : Value
  | str (s : String) : Value
  | arr (l : List Prim) : Value
deriving Repr, DecidableEq

/-- `MISSING = ("NA", "NaN", "NAN", "None", "", None)` (module constant). -/
def MISSING_STRINGS : List String := ["NA", "NaN", "NAN", "None", ""]

/-- Python `value in MISSING`: `None` matches `None`; a string matches one of
the sentinel strings; ints, floats and lists compare unequal to every member
of `MISSING`. -/
def Value.inMISSING : Value → Bool
  | .null => true
  | .str s => MISSING_STRINGS.contains s
  | _ => false

/-- Numeric view: `isinstance(value, NUMBERS)` with the numeric content as an
exact rational (`NUMBERS = (float, int, complex)`; complex values never arise
in this program). -/
def Value.toQ? : Value → Option ℚ
  | .int n => some (n : ℚ)
  | .float q => some q
  | _ => Option.none

/-- `isinstance(value, NUMBERS)`. -/
def Value.isNumeric (v : Value) : Bool := v.toQ?.isSome

/-- Split a character list at every occurrence of `sep` (Python
`str.split(sep)` for a one-character separator): structural so that proofs
can evaluate it. -/
def splitChar (sep : Char) : List Char → List Char → List (List Char)
  | [], acc => [acc.reverse]
  | c :: cs, acc =>
    if c = sep then acc.reverse :: splitChar sep cs [] else splitChar sep cs (c :: acc)

/-- Python `s.split(sep)` for a one-character separator. -/
def strSplit (s : String) (sep : Char) : List String :=
  (splitChar sep s.toList []).map String.mk

/-- Split at every occurrence of the two-character separator `->` (the
attribute addressing of `get_element`). -/
def splitArrowAux : List Char → List Char → List (List Char)
  | '-' :: '>' :: rest, acc => acc.reverse :: splitArrowAux rest []
  | c :: rest, acc => splitArrowAux rest (c :: acc)
  | [], acc => [acc.reverse]

/-- Python `s.split("->")`. -/
def splitArrow (s : String) : List String :=
  (splitArrowAux s.toList []).map String.mk

/-- Python whitespace characters stripped by `str.strip()`. -/
def isSpaceChar (c : Char) : Bool := c = ' ' ∨ c = '\t' ∨ c = '\n' ∨ c = '\r'

/-- Python `str.strip()` on a character list. -/
def trimList (cs : List Char) : List Char :=
  ((cs.dropWhile isSpaceChar).reverse.dropWhile isSpaceChar).reverse

/-- Association-list lookup with string keys (Python dict access). -/
def alookup {α : Type} : List (String × α) → String → Option α
  | [], _ => Option.none
  | (k, v) :: rest, key => if key = k then some v else alookup rest key

/-- Value of a list of decimal digits. -/
def decDigits (cs : List Char) : ℕ := cs.foldl (fun a c => a * 10 + (c.toNat - 48)) 0

/-- Nonempty and all decimal digits. -/
def allDigits (cs : List Char) : Bool := !cs.isEmpty && cs.all Char.isDigit

/-- Python `int(str)` on the literal forms used by templates: optional sign
followed by decimal digits (surrounding whitespace stripped). -/
def pyInt? (s : String) : Option ℤ :=
  match trimList s.toList with
  | '-' :: rest => if allDigits rest then some (-(decDigits rest : ℤ)) else Option.none
  | '+' :: rest => if allDigits rest then some (decDigits rest : ℤ) else Option.none
  | cs => if allDigits cs then some (decDigits cs : ℤ) else Option.none

/-- Value of a fractional digit string. -/
def fracVal (cs : List Char) : ℚ := (decDigits cs : ℚ) / (10 : ℚ) ^ cs.length

/-- Unsigned decimal, with at most one point and digits on at least one side. -/
def pyFloatCore (cs : List Char) : Option ℚ :=
  match splitChar '.' cs [] with
  | [ip] => if allDigits ip then some ((decDigits ip : ℕ) : ℚ) else Option.none
  | [ip, fp] =>
      if (ip.all Char.isDigit && fp.all Char.isDigit) && !(ip.isEmpty && fp.isEmpty) then
        some (((decDigits ip : ℕ) : ℚ) + fracVal fp)
      else Option.none
  | _ => Option.none

/-- Python `float(str)` on the decimal literal forms used by templates:
optional sign, digits, optional fractional part (no exponent notation, which
never occurs in this program's inputs). -/
def pyFloat? (s : String) : Option ℚ :=
  match trimList s.toList with
  | '-' :: rest => (pyFloatCore rest).map Neg.neg
  | '+' :: rest => pyFloatCore rest
  | cs => pyFloatCore cs

/-- Python `round(x)`: round half to even. -/
def pyRound (q : ℚ) : ℤ :=
  let f := ⌊q⌋
  let r := q - (f : ℚ)
  if r < 1/2 then f
  else if r > 1/2 then f + 1
  else if f % 2 = 0 then f else f + 1

/-- Python `int(x)` on a float: truncation toward zero. -/
def pyTrunc (q : ℚ) : ℤ := if 0 ≤ q then ⌊q⌋ else ⌈q⌉

/-- Python `str(x)` for the values interpolated into the WIGOS identifier.
Floats are only ever stringified when integer-valued in this program; a
non-integer rational falls back to its numerator/denominator rendering. -/
def pyStr : Value → String
  | .null => "None"
  | .int n => toString n
  | .str s => s
  | .float q => if q.den = 1 then toString q.num ++ ".0" else toString q.num ++ "/" ++ toString q.den
  | .arr _ => "[...]"

/-- A Python dict of row data: insertion-ordered key/value pairs, with
`lookup` returning the binding for a key. -/
abbrev Row := List (String × Value)

/-- Python dict assignment `d[k] = v`: replaces an existing binding in place,
otherwise appends. -/
def dictInsert (d : Row) (k : String) (v : Value) : Row :=
  if (alookup d k).isSome then d.map (fun p => if p.1 = k then (k, v) else p)
  else d ++ [(k, v)]

/-- `dict(zip(col_names, row))`. -/
def mkDict (ks : List String) (vs : List Value) : Row :=
  (ks.zip vs).foldl (fun d p => dictInsert d p.1 p.2) []

/-- `parse_value(element, data)` (`__init__.py:143`).  `data` is an
`Option Row` because the header extraction calls pass `data=None`.  Returns
the result (value or raised error) together with the warnings appended to the
thread's global warning list.  Note that in the `data:` branch with the
nullify policy, a missing column appends a warning but the subsequent
`data[column]` subscript still raises `KeyError`. -/
def parse_value (nullify : Bool) (element : String) (data : Option Row) :
    Except String Value × List String :=
  let data_type := strSplit element ':'
  let kind := data_type.headD ""
  if kind = "const" then
    match data_type[1]? with
    | Option.none => (.error "IndexError: list index out of range", [])
    | some v =>
      if v.toList.contains '.' then
        match pyFloat? v with
        | some q => (.ok (.float q), [])
        | Option.none => (.error ("ValueError: could not convert string to float: " ++ v), [])
      else
        match pyInt? v with
        | some n => (.ok (.int n), [])
        | Option.none => (.error ("ValueError: invalid literal for int: " ++ v), [])
  else if kind = "data" then
    match data_type[1]? with
    | Option.none => (.error "IndexError: list index out of range", [])
    | some column =>
      match data with
      | Option.none => (.error "TypeError: argument of type NoneType is not iterable", [])
      | some d =>
        match alookup d column with
        | some v => (.ok v, [])
        | Option.none =>
          if nullify then
            (.error ("KeyError: " ++ column),
             ["Column " ++ column ++ " not found in input data"])
          else (.error ("Column " ++ column ++ " not found in input data"), [])
  else if kind = "array" then
    match data_type[1]? with
    | Option.none => (.error "IndexError: list index out of range", [])
    | some v =>
      let words := strSplit v ','
      if v.toList.contains '.' then
        match words.mapM (fun w => pyFloat? w) with
        | some qs => (.ok (.arr (qs.map Prim.pfloat)), [])
        | Option.none => (.error "ValueError: could not convert string to float", [])
      else
        match words.mapM (fun w => pyInt? w) with
        | some ns => (.ok (.arr (ns.map Prim.pint)), [])
        | Option.none => (.error "ValueError: invalid literal for int", [])
  else if kind = "" then (.ok .null, [])
  else (.error ("Data type (" ++ kind ++ ") not recognised in mapping: " ++ element), [])

/-- One entry of a template's `header`/`data` section. -/
structure FieldSpec where
  eccodes_key : String
  value : String
  valid_min : Option String := Option.none
  valid_max : Option String := Option.none
  scale : Option String := Option.none
  offset : Option String := Option.none
deriving Repr, DecidableEq

/-- `index_(key, mapping)` (`__init__.py:124`): position of the element with
the given `eccodes_key`; under the nullify policy a missing key yields `None`
plus a warning, otherwise a `ValueError`. -/
def index_ (nullify : Bool) (key : String) (mapping : List FieldSpec) :
    Except String (Option ℕ) × List String :=
  match mapping.findIdx? (fun item => item.eccodes_key == key) with
  | some idx => (.ok (some idx), [])
  | Option.none =>
    if nullify then (.ok Option.none, ["Warning: key " ++ key ++ " not found in mapping"])
    else (.error ("Error: key " ++ key ++ " not found in mapping"), [])

/-- `get_(key, mapping, data)` (`__init__.py:185`): find the element for
`key` and resolve its value expression; every exception from `index_` /
`parse_value` (including the `TypeError` from subscripting with the `None`
index that `index_` returns under the nullify policy) is caught and turned
into `None` plus a warning when nullifying, and re-raised as `KeyError`
otherwise. -/
def get_ (nullify : Bool) (key : String) (mapping : List FieldSpec) (data : Option Row) :
    Except String Value × List String :=
  match index_ nullify key mapping with
  | (.error e, w) =>
    if nullify then
      (.ok .null, w ++ ["Warning (" ++ e ++ ") raised getting value for " ++ key ++ ", None returned for " ++ key])
    else
      (.error ("Warning (" ++ e ++ ") raised getting value for " ++ key ++ ", None returned for " ++ key), w)
  | (.ok Option.none, w) =>
    if nullify then
      (.ok .null, w ++ ["Warning (TypeError) raised getting value for " ++ key ++ ", None returned for " ++ key])
    else
      (.error ("Warning (TypeError) raised getting value for " ++ key ++ ", None returned for " ++ key), w)
  | (.ok (some idx), w) =>
    match mapping[idx]? with
    | Option.none =>
      if nullify then (.ok .null, w ++ ["Warning (IndexError) raised getting value for " ++ key])
      else (.error ("Warning (IndexError) raised getting value for " ++ key), w)
    | some element =>
      match parse_value nullify element.value data with
      | (.ok v, w2) => (.ok v, w ++ w2)
      | (.error e, w2) =>
        if nullify then
          (.ok .null, w ++ w2 ++ ["Warning (" ++ e ++ ") raised getting value for " ++ key ++ ", None returned for " ++ key])
        else
          (.error ("Warning (" ++ e ++ ") raised getting value for " ++ key ++ ", None returned for " ++ key), w ++ w2)

/-- `pow(10, s)` for the numeric scales arising here.  A non-integer float
exponent would give an irrational power, which the exact rational model
cannot represent; it is treated as a scaling-arithmetic failure (it never
occurs for BUFR scales, which are integers). -/
def pow10 : Value → Option ℚ
  | .int n => some ((10 : ℚ) ^ n)
  | .float q => if q.den = 1 then some ((10 : ℚ) ^ q.num) else Option.none
  | _ => Option.none

/-- The case of `value * pow(10, scale) + offset` that stays a Python `int`:
all three operands `int` and the scale non-negative. -/
def intResult? (value scale offset : Value) : Option ℤ :=
  match value, scale, offset with
  | .int n, .int s, .int o => if 0 ≤ s then some (n * 10 ^ s.toNat + o) else Option.none
  | _, _, _ => Option.none

/-- `apply_scaling(value, scale, offset)` (`__init__.py:204`): the transform
`value * 10^scale + offset`, applied only when `value` is numeric and both
`scale` and `offset` are not `None`; an arithmetic failure (non-numeric scale
or offset) raises `RuntimeError`.  An all-`int` input with a non-negative
scale stays `int`, as in Python; every other numeric combination is a
`float`. -/
def apply_scaling (value scale offset : Value) : Except String Value :=
  if value.isNumeric then
    if scale = Value.null ∨ offset = Value.null then .ok value
    else
      match intResult? value scale offset with
      | some n => .ok (.int n)
      | Option.none =>
        match value.toQ?, pow10 scale, offset.toQ? with
        | some vq, some p, some oq => .ok (.float (vq * p + oq))
        | _, _, _ => .error "Error applying scaling and offset"
  else .ok value

/-- `validate_value(key, value, valid_min, valid_max, nullify_on_fail)`
(`__init__.py:232`): `None` and non-numeric values pass through; with both
bounds present, `value > valid_max or value < valid_min` (evaluated in that
short-circuit order, a non-numeric bound raising `TypeError`) either
nullifies with a warning or raises `ValueError`. -/
def validate_value (key : String) (value valid_min valid_max : Value)
    (nullify_on_fail : Bool) : Except String Value × List String :=
  if value = Value.null then (.ok value, [])
  else
    match value.toQ? with
    | Option.none => (.ok value, [])
    | some vq =>
      let oor : Except String Value × List String :=
        if nullify_on_fail then
          (.ok .null, [key ++ ": Value out of valid range; Element set to missing"])
        else (.error (key ++ ": Value out of valid range"), [])
      if valid_min ≠ Value.null ∧ valid_max ≠ Value.null then
        match valid_max.toQ? with
        | Option.none => (.error ("TypeError: unorderable comparison for " ++ key), [])
        | some mx =>
          if vq > mx then oor
          else
            match valid_min.toQ? with
            | Option.none => (.error ("TypeError: unorderable comparison for " ++ key), [])
            | some mn => if vq < mn then oor else (.ok value, [])
      else (.ok value, [])

/-- `HEADERS`: ecCodes keys for BUFR headers (module constant). -/
def HEADERS : List String :=
  ["edition", "masterTableNumber", "bufrHeaderCentre",
   "bufrHeaderSubCentre", "updateSequenceNumber", "dataCategory",
   "internationalDataSubCategory", "dataSubCategory",
   "masterTablesVersionNumber", "localTablesVersionNumber",
   "typicalYear", "typicalMonth", "typicalDay", "typicalHour",
   "typicalMinute", "typicalSecond", "typicalDate", "typicalTime",
   "numberOfSubsets", "observedData", "compressedData",
   "unexpandedDescriptors", "subsetNumber"]

/-- One Field Registry entry of `BUFRMessage.dict`: current value, native
type name (as `codes_get_native_type(...).__name__`), and for non-header
keys the code-table attributes (code, units, scale, reference, width). -/
structure Entry where
  value : Value
  type : String
  attrs : List (String × Value) := []
deriving Repr, DecidableEq

/-- The state of a `BUFRMessage` (`__init__.py:271`).  The key enumeration
and native types come from the external codec at construction and are taken
as given here; `hashv` models `self._hash`. -/
structure BUFRMessage where
  dict : List (String × Entry)
  descriptors : List ℤ := []
  short_delayed_replications : List ℤ := []
  delayed_replications : List ℤ := []
  extended_delayed_replications : List ℤ := []
  bufr : Option (List ℕ) := Option.none
  hashv : Option (List ℕ) := Option.none
  warnings : List String := []
deriving Repr, DecidableEq

/-- Update the stored value of one key (`self.dict[key]["value"] = v`). -/
def BUFRMessage.setValue (m : BUFRMessage) (k : String) (v : Value) : BUFRMessage :=
  { m with dict := m.dict.map (fun p => if p.1 = k then (p.1, { p.2 with value := v }) else p) }

/-- `reset()` (`__init__.py:419`): every entry's value becomes `None`, the
cached bytes and the warnings are cleared.  `self._hash` is not touched. -/
def BUFRMessage.reset (m : BUFRMessage) : BUFRMessage :=
  { m with dict := m.dict.map (fun p => (p.1, { p.2 with value := Value.null })),
           bufr := Option.none, warnings := [] }

/-- The type coercion inside `set_element`: `None` and lists are stored
as-is; an `int` target rounds floats half-to-even and parses strings via
`int(float(...))`; a `float` target parses via `float(...)`; any other target
stores the value unchanged.  A failed conversion stores `None` with a warning
under the nullify policy and raises `RuntimeError` otherwise. -/
def coerce_value (nullify : Bool) (t : String) (v : Value) : Except String Value × List String :=
  if v = Value.null then (.ok v, [])
  else
    match v with
    | .arr l => (.ok (.arr l), [])
    | v =>
      let intFail : Except String Value × List String :=
        if nullify then (.ok .null, ["Unable to convert value to int, set to None"])
        else (.error "Unable to convert value to int", [])
      let floatFail : Except String Value × List String :=
        if nullify then (.ok .null, ["Unable to convert value to float, set to None"])
        else (.error "Unable to convert value to float", [])
      if t = "int" then
        match v with
        | .int n => (.ok (.int n), [])
        | .float q => (.ok (.int (pyRound q)), [])
        | .str s =>
          match pyFloat? s with
          | some q => (.ok (.int (pyTrunc q)), [])
          | Option.none => intFail
        | _ => intFail
      else if t = "float" then
        match v with
        | .float q => (.ok (.float q), [])
        | .int n => (.ok (.float (n : ℚ)), [])
        | .str s =>
          match pyFloat? s with
          | some q => (.ok (.float q), [])
          | Option.none => floatFail
        | _ => floatFail
      else (.ok v, [])

/-- `set_element(key, value)` (`__init__.py:430`): coerce per the entry's
native type and store; an unknown key raises `KeyError`. -/
def set_element (nullify : Bool) (m : BUFRMessage) (key : String) (value : Value) :
    Except String BUFRMessage :=
  match alookup m.dict key with
  | Option.none => .error ("KeyError: " ++ key)
  | some e =>
    match coerce_value nullify e.type value with
    | (.ok v, w) => .ok { m.setValue key v with warnings := m.warnings ++ w }
    | (.error err, _) => .error err

/-- Entry field addressing for `get_element`'s `key->attribute` mode. -/
def Entry.field? (e : Entry) (name : String) : Option Value :=
  if name = "value" then some e.value
  else if name = "type" then some (.str e.type)
  else alookup e.attrs name

/-- The value computation inside `get_element`'s `try`, a function of the
registry dict alone: the stored value, or with `key->attribute` a stored
attribute. -/
def get_element_res (dict : List (String × Entry)) (key : String) : Except String Value :=
  match splitArrow key with
  | t0 :: t1 :: _ =>
    match alookup dict t0 with
    | some e =>
      match e.field? t1 with
      | some v => .ok v
      | Option.none => .error ("KeyError: " ++ t1)
    | Option.none => .error ("KeyError: " ++ t0)
  | _ =>
    match alookup dict key with
    | some e => .ok e.value
    | Option.none => .error ("KeyError: " ++ key)

/-- `get_element(key)` (`__init__.py:470`): value of a key, or with
`key->attribute` a stored attribute; failures become `None` plus a warning
under the nullify policy and `RuntimeError` otherwise. -/
def get_element (nullify : Bool) (m : BUFRMessage) (key : String) :
    Except String Value × BUFRMessage :=
  match get_element_res m.dict key with
  | .ok v => (.ok v, m)
  | .error e =>
    if nullify then
      (.ok .null,
       { m with warnings := m.warnings ++
          ["Error " ++ e ++ " whilst fetching " ++ key ++ " from data, None returned"] })
    else (.error ("Error " ++ e ++ " whilst fetching " ++ key ++ " from data."), m)

/-- `hashlib.md5(...).hexdigest()` (external library): modelled as an
injective function of the byte content — the bytes themselves — since only
equality and presence of checksums are observable in this development. -/
def md5_of (b : List ℕ) : List ℕ := b

/-- Outcome of one encoding round-trip through the external eccodes codec
(the `codes_set_array`/`codes_set` calls, including the delayed-replication
one, then packing, then `codes_write`), as a function of the non-`None`
key/value pairs handed to it. -/
inductive CodecResult where
  | setFail (msg : String) : CodecResult
  | packInternal (msg : String) : CodecResult
  | packFail (msg : String) : CodecResult
  | writeFail (msg : String) : CodecResult
  | bytes (b : List ℕ) : CodecResult
deriving Repr, DecidableEq

/-- The external codec, abstracted as the behavior it exhibits for a given
list of encoded values. -/
abbrev Codec := List (String × Value) → CodecResult

/-- The non-`None` key/value pairs of the message, in dict order. -/
def BUFRMessage.nonNull (m : BUFRMessage) : List (String × Value) :=
  (m.dict.filter (fun p => p.2.value ≠ Value.null)).map (fun p => (p.1, p.2.value))

/-- `as_bufr(use_cached)` (`__init__.py:498`): encode the current values via
the codec.  A `CodesInternalError` during packing is caught: a warning is
recorded and the cached `self.bufr` (possibly `None`) is returned; all other
codec failures raise `RuntimeError`.  On success the bytes are cached and
`self._hash` is set to their hash. -/
def as_bufr (codec : Codec) (m : BUFRMessage) (use_cached : Bool) :
    Except String (Option (List ℕ)) × BUFRMessage :=
  if use_cached && m.bufr.isSome then (.ok m.bufr, m)
  else
    match codec m.nonNull with
    | .setFail msg => (.error ("Error (" ++ msg ++ ") calling codes_set"), m)
    | .packInternal msg =>
      (.ok m.bufr,
       { m with warnings := m.warnings ++
          ["Error (" ++ msg ++ ") calling codes_set(pack, True). Null message returned"] })
    | .packFail msg => (.error ("Error (" ++ msg ++ ") calling codes_set(pack, True)"), m)
    | .writeFail msg => (.error ("Error (" ++ msg ++ ") writing to internal BytesIO object"), m)
    | .bytes b => (.ok (some b), { m with bufr := some b, hashv := some (md5_of b) })

/-- `md5()` (`__init__.py:583`): returns the cached `self._hash`. -/
def BUFRMessage.md5 (m : BUFRMessage) : Option (List ℕ) := m.hashv

/-- `get_element` over a list of keys, threading the message state. -/
def getElems (nullify : Bool) : BUFRMessage → List String → (Except String (List Value)) × BUFRMessage
  | m, [] => (.ok [], m)
  | m, k :: ks =>
    match get_element nullify m k with
    | (.error e, m') => (.error e, m')
    | (.ok v, m') =>
      match getElems nullify m' ks with
      | (.ok vs, m'') => (.ok (v :: vs), m'')
      | (.error e, m'') => (.error e, m'')

/-- Days in a month of the proleptic Gregorian calendar, as Python
`datetime` enforces. -/
def daysInMonth (y mo : ℤ) : ℤ :=
  if mo = 2 then
    if (y % 4 = 0 ∧ y % 100 ≠ 0) ∨ y % 400 = 0 then 29 else 28
  else if mo = 4 ∨ mo = 6 ∨ mo = 9 ∨ mo = 11 then 30
  else 31

/-- Python `datetime(y, mo, d, h, mi)`: integer arguments within calendar
ranges, else `TypeError`/`ValueError`. -/
def mkDatetime (y mo d h mi : Value) : Except String (ℤ × ℤ × ℤ × ℤ × ℤ) :=
  match y, mo, d, h, mi with
  | .int y, .int mo, .int d, .int h, .int mi =>
    if 1 ≤ y ∧ y ≤ 9999 ∧ 1 ≤ mo ∧ mo ≤ 12 ∧ 1 ≤ d ∧ d ≤ daysInMonth y mo
        ∧ 0 ≤ h ∧ h ≤ 23 ∧ 0 ≤ mi ∧ mi ≤ 59 then
      .ok (y, mo, d, h, mi)
    else .error "ValueError: datetime argument out of range"
  | _, _, _, _, _ => .error "TypeError: an integer is required"

/-- The five typical date/time header keys used by `get_datetime`. -/
def DT_KEYS : List String :=
  ["typicalYear", "typicalMonth", "typicalDay", "typicalHour", "typicalMinute"]

/-- The `datetime(...)` construction from the five fetched elements. -/
def mkDT_of : List Value → Except String (ℤ × ℤ × ℤ × ℤ × ℤ)
  | [y, mo, d, h, mi] => mkDatetime y mo d h mi
  | _ => .error "Error: invalid datetime"

/-- `get_datetime()` (`__init__.py:675`): raises if any of the five typical
date/time elements is `None` (each fetched once for the membership test and
once more as constructor argument), and builds the datetime otherwise. -/
def get_datetime (nullify : Bool) (m : BUFRMessage) :
    Except String (ℤ × ℤ × ℤ × ℤ × ℤ) × BUFRMessage :=
  match getElems nullify m DT_KEYS with
  | (.error e, m2) => (.error e, m2)
  | (.ok vs, m2) =>
    if vs.contains Value.null then (.error "Error: invalid datetime", m2)
    else
      match getElems nullify m2 DT_KEYS with
      | (.error e, m3) => (.error e, m3)
      | (.ok vs2, m3) => (mkDT_of vs2, m3)

/-- Python `float(value)` on a runtime value (the expected-type conversion in
`parse`). -/
def pyFloatValue : Value → Except String ℚ
  | .int n => .ok (n : ℚ)
  | .float q => .ok q
  | .str s =>
    match pyFloat? s with
    | some q => .ok q
    | Option.none => .error ("ValueError: could not convert string to float: " ++ s)
  | .null => .error "TypeError: float() argument must not be None"
  | .arr _ => .error "TypeError: float() argument must not be a list"

/-- Lines 613–625 of `parse`: sentinel values become `None`; otherwise, for a
`float`/`int`-typed non-header key, the value is converted with `float(...)`
(failure raising `RuntimeError`); an unregistered key raises `KeyError`. -/
def convert_stage (m : BUFRMessage) (key : String) (v0 : Value) : Except String Value :=
  if v0.inMISSING then .ok .null
  else
    match alookup m.dict key with
    | Option.none => .error ("KeyError: " ++ key)
    | some e =>
      if (e.type = "float" ∨ e.type = "int") ∧ ¬ HEADERS.contains key then
        match pyFloatValue v0 with
        | .ok q => .ok (.float q)
        | .error err => .error ("Error (" ++ err ++ ") converting value to expected type")
      else .ok v0

/-- Resolution of an optional expression (`valid_min`/`valid_max`/`scale`/
`offset`): absent keys leave the Python variable at `None`. -/
def resolve_opt (nullify : Bool) (o : Option String) (data : Row) :
    Except String Value × List String :=
  match o with
  | Option.none => (.ok Value.null, [])
  | some expr => parse_value nullify expr (some data)

/-- Lines 635–647 of `parse`: `validate_value` under the module policy, with
its exceptions nullified (appending a message warning) or re-raised.  Result
components: value, global-warning additions, message-warning additions. -/
def validation_stage (nullify : Bool) (key : String) (v1 vmin vmax : Value) :
    Except String Value × List String × List String :=
  match validate_value key v1 vmin vmax nullify with
  | (.ok v2, w) => (.ok v2, w, [])
  | (.error e, w) =>
    if nullify then
      (.ok .null, w, ["Error raised whilst validating " ++ key ++ ", value set to None"])
    else (.error e, w, [])

/-- Lines 652–667 of `parse`: a (re-normalized) sentinel skips scaling as
`None`; otherwise `scale`/`offset` are resolved and `apply_scaling` applied,
any failure raising `RuntimeError`. -/
def scaling_stage (nullify : Bool) (element : FieldSpec) (data : Row) (v2 : Value) :
    Except String Value × List String :=
  if v2.inMISSING then (.ok .null, [])
  else
    match resolve_opt nullify element.scale data with
    | (.error e, w) => (.error ("Error (" ++ e ++ ") scaling data"), w)
    | (.ok sc, w) =>
      match resolve_opt nullify element.offset data with
      | (.error e, w2) => (.error ("Error (" ++ e ++ ") scaling data"), w ++ w2)
      | (.ok off, w2) =>
        match apply_scaling v2 sc off with
        | .ok v3 => (.ok v3, w ++ w2)
        | .error e => (.error ("Error (" ++ e ++ ") scaling data"), w ++ w2)

/-- The per-element body of `BUFRMessage.parse` (`__init__.py:607`–673):
resolve → normalize sentinels / convert type → resolve bounds → validate →
re-normalize → scale → `set_element`.  Returns the exception outcome, the
updated message (dict values and message warnings), and the additions made
to the global warnings list. -/
def parse_element (nullify : Bool) (m : BUFRMessage) (mapping : List FieldSpec)
    (element : FieldSpec) (data : Row) :
    (Except String Unit) × BUFRMessage × List String :=
  let key := element.eccodes_key
  match get_ nullify key mapping (some data) with
  | (.error e, w) => (.error e, m, w)
  | (.ok v0, w0) =>
    match convert_stage m key v0 with
    | .error e => (.error e, m, w0)
    | .ok v1 =>
      match resolve_opt nullify element.valid_min data with
      | (.error e, w1) => (.error e, m, w0 ++ w1)
      | (.ok vmin, w1) =>
        match resolve_opt nullify element.valid_max data with
        | (.error e, w2) => (.error e, m, w0 ++ w1 ++ w2)
        | (.ok vmax, w2) =>
          match validation_stage nullify key v1 vmin vmax with
          | (.error e, wg, _) => (.error e, m, w0 ++ w1 ++ w2 ++ wg)
          | (.ok v2, wg, wm) =>
            let m1 := { m with warnings := m.warnings ++ wm }
            match scaling_stage nullify element data v2 with
            | (.error e, ws) => (.error e, m1, w0 ++ w1 ++ w2 ++ wg ++ ws)
            | (.ok v3, ws) =>
              match set_element nullify m1 key v3 with
              | .ok m2 => (.ok (), m2, w0 ++ w1 ++ w2 ++ wg ++ ws)
              | .error e => (.error e, m1, w0 ++ w1 ++ w2 ++ wg ++ ws)

/-- The inner loop of `parse` over one section's elements (each element's
`get_` searches the whole section by key). -/
def parse_elements (nullify : Bool) (mapping : List FieldSpec) (data : Row) :
    BUFRMessage → List FieldSpec → (Except String Unit) × BUFRMessage × List String
  | m, [] => (.ok (), m, [])
  | m, e :: es =>
    match parse_element nullify m mapping e data with
    | (.error err, m', w) => (.error err, m', w)
    | (.ok _, m', w) =>
      match parse_elements nullify mapping data m' es with
      | (r, m'', w') => (r, m'', w ++ w')

/-- A mapping template, already loaded and schema-validated (the jsonschema
validation `validate_template` is external; a template failing it aborts
before any row work, so only validated templates reach this model). -/
structure Mappings where
  header : List FieldSpec
  data : List FieldSpec
  inputShortDelayedDescriptorReplicationFactor : List ℤ := []
  inputDelayedDescriptorReplicationFactor : List ℤ := []
  inputExtendedDelayedDescriptorReplicationFactor : List ℤ := []
  number_header_rows : ℕ := 1
  column_names_row : ℕ := 1
  wigos_station_identifier : Option String := Option.none
  delimiter : Option String := Option.none
deriving Repr

/-- `BUFRMessage.parse(data, mappings)` (`__init__.py:591`): the `header`
section then the `data` section. -/
def BUFRMessage.parse (nullify : Bool) (m : BUFRMessage) (data : Row) (mp : Mappings) :
    (Except String Unit) × BUFRMessage × List String :=
  match parse_elements nullify mp.header data m mp.header with
  | (.error e, m', w) => (.error e, m', w)
  | (.ok _, m', w) =>
    match parse_elements nullify mp.data data m' mp.data with
    | (r, m'', w') => (r, m'', w ++ w')

/-- Status codes (module constants). -/
def FAILED : ℕ := 0

/-- Status code for a successfully encoded row. -/
def PASSED : ℕ := 1

/-- Python `str.isascii()`: every code point below 128. -/
def isAsciiStr (s : String) : Bool := s.toList.all (fun c => c.toNat ≤ 127)

/-- How the WIGOS station identifier is obtained, per the `transform`
preamble (`__init__.py:751`–784): `wsi_kind` 1 (`const:`), 2 (any other
single expression, read as a column name), or 3 (the four explicit
component value expressions from the `data` section). -/
inductive WsiCfg where
  | constWsi (value : String) : WsiCfg
  | fieldWsi (column : String) : WsiCfg
  | fourWsi (series issuer issueNumber localId : String) : WsiCfg
deriving Repr, DecidableEq

/-- The `transform` preamble determining the WIGOS-identifier source; a
malformed or absent configuration is batch-fatal. -/
def wsi_setup (mp : Mappings) : Except String WsiCfg :=
  match mp.wigos_station_identifier with
  | some w =>
    match strSplit w ':' with
    | [k, v] => if k = "const" then .ok (.constWsi v) else .ok (.fieldWsi v)
    | _ => .error "Invalid wigos_station_identifier mapping specified"
  | Option.none =>
    let f : String → Option String := fun k =>
      (((mp.data.filter (fun item => item.eccodes_key == k)).map FieldSpec.value).getLast?)
    match f "#1#wigosIdentifierSeries", f "#1#wigosIssuerOfIdentifier",
          f "#1#wigosIssueNumber", f "#1#wigosLocalIdentifierCharacter" with
    | some a, some b, some c, some d => .ok (.fourWsi a b c d)
    | _, _, _, _ => .error "Invalid wigos_station_identifier mapping specified"

/-- One component of a kind-3 WIGOS identifier: `f"{parse_value(expr, d)}"`. -/
def wsiComponent (nullify : Bool) (expr : String) (d : Row) :
    Except String String × List String :=
  match parse_value nullify expr (some d) with
  | (.ok v, w) => (.ok (pyStr v), w)
  | (.error e, w) => (.error e, w)

/-- The WIGOS-identifier block of the row loop (`__init__.py:883`–909):
compute the identifier string, split it into its four components and insert
them into the row dict.  Every failure here is re-raised (`KeyError` or
`ValueError`), aborting the batch. -/
def extract_wsi (nullify : Bool) (cfg : WsiCfg) (d : Row) :
    Except String (String × Row) × List String :=
  let wsiStr : Except String String × List String :=
    match cfg with
    | .constWsi v => (.ok v, [])
    | .fieldWsi col =>
      match alookup d col with
      | some (.str s) => (.ok s, [])
      | some _ => (.error "Error parsing WIGOS station identifier", [])
      | Option.none =>
        (.error ("Error, key " ++ col ++ " not found in input data when building WIGOS station identifier"), [])
    | .fourWsi a b c dd =>
      match wsiComponent nullify a d with
      | (.error e, w) => (.error ("Error (" ++ e ++ ") parsing WIGOS station identifier"), w)
      | (.ok sa, w1) =>
        match wsiComponent nullify b d with
        | (.error e, w) => (.error ("Error (" ++ e ++ ") parsing WIGOS station identifier"), w1 ++ w)
        | (.ok sb, w2) =>
          match wsiComponent nullify c d with
          | (.error e, w) => (.error ("Error (" ++ e ++ ") parsing WIGOS station identifier"), w1 ++ w2 ++ w)
          | (.ok sc, w3) =>
            match wsiComponent nullify dd d with
            | (.error e, w) =>
              (.error ("Error (" ++ e ++ ") parsing WIGOS station identifier"), w1 ++ w2 ++ w3 ++ w)
            | (.ok sd, w4) =>
              (.ok (sa ++ "-" ++ sb ++ "-" ++ sc ++ "-" ++ sd), w1 ++ w2 ++ w3 ++ w4)
  match wsiStr with
  | (.error e, w) => (.error e, w)
  | (.ok s, w) =>
    match strSplit s '-' with
    | [p1, p2, p3, p4] =>
      let d1 := dictInsert (dictInsert (dictInsert (dictInsert d
        "_wsi_series" (.str p1)) "_wsi_issuer" (.str p2))
        "_wsi_issue_number" (.str p3)) "_wsi_local" (.str p4)
      (.ok (s, d1), w)
    | _ => (.error "Error (unpack) parsing WIGOS station identifier", w)

/-- The per-row output record yielded by `transform`. -/
structure RowResult where
  bufr4 : Option (List ℕ) := Option.none
  code : ℕ := 0
  message : String := ""
  errors : List String := []
  warnings : List String := []
  id : Option String := Option.none
  longitude : Value := Value.null
  latitude : Value := Value.null
  md5 : Option (List ℕ) := Option.none
  wigos_station_identifier : Option String := Option.none
  datetime : Option (ℤ × ℤ × ℤ × ℤ × ℤ) := Option.none
  originating_centre : Value := Value.null
  data_category : Value := Value.null
deriving Repr, DecidableEq

/-- The `except` branch of the row loop (`__init__.py:948`–973). -/
def failedResult (e : String) (msgWarnings gWarnings : List String) : RowResult :=
  { bufr4 := Option.none, code := FAILED,
    message := "Error encoding row, BUFR set to None",
    errors := ["Error (" ++ e ++ ") encoding BUFR, BUFR set to None"],
    warnings := msgWarnings ++ gWarnings }

/-- Zero-padded decimal rendering. -/
def pad (w : ℕ) (n : ℤ) : String :=
  let s := toString n
  if s.length < w then String.mk (List.replicate (w - s.length) '0') ++ s else s

/-- `strftime('%Y%m%dT%H%M%S')` on a datetime with zero seconds. -/
def isoCompact (dt : ℤ × ℤ × ℤ × ℤ × ℤ) : String :=
  pad 4 dt.1 ++ pad 2 dt.2.1 ++ pad 2 dt.2.2.1 ++ "T" ++ pad 2 dt.2.2.2.1
    ++ pad 2 dt.2.2.2.2 ++ "00"

/-- The `try` block of the row loop (`__init__.py:913`–973): parse, encode
and assemble the result; any exception gives the `FAILED` result for this
row.  `g2args` is the global-warnings list accumulated for this row before
the block.  Total: every path yields a row result. -/
def row_try (nullify : Bool) (codec : Codec) (mp : Mappings) (wsi : String) (d : Row)
    (g1 : List String) (m1 : BUFRMessage) : RowResult × BUFRMessage :=
  match BUFRMessage.parse nullify m1 d mp with
  | (.error e, m2, gp) => (failedResult e m2.warnings (g1 ++ gp), m2)
  | (.ok _, m2, gp) =>
    let g2 := g1 ++ gp
    match as_bufr codec m2 false with
    | (.error e, m3) => (failedResult e m3.warnings g2, m3)
    | (.ok ob, m3) =>
      let statusWarnings := m3.warnings ++ g2
      let cksum := m3.md5
      match get_datetime nullify m3 with
      | (.error e, m4) => (failedResult e m4.warnings g2, m4)
      | (.ok dt, m4) =>
        let rmk := "WIGOS_" ++ wsi ++ "_" ++ isoCompact dt
        match get_element nullify m4 "#1#longitude" with
        | (.error e, m5) => (failedResult e m5.warnings g2, m5)
        | (.ok lon, m5) =>
          match get_element nullify m5 "#1#latitude" with
          | (.error e, m6) => (failedResult e m6.warnings g2, m6)
          | (.ok lat, m6) =>
            match get_datetime nullify m6 with
            | (.error e, m7) => (failedResult e m7.warnings g2, m7)
            | (.ok dt2, m7) =>
              match get_element nullify m7 "bufrHeaderCentre" with
              | (.error e, m8) => (failedResult e m8.warnings g2, m8)
              | (.ok oc, m8) =>
                match get_element nullify m8 "dataCategory" with
                | (.error e, m9) => (failedResult e m9.warnings g2, m9)
                | (.ok dc, m9) =>
                  ({ bufr4 := ob, code := PASSED, message := "",
                     errors := [], warnings := statusWarnings,
                     id := some rmk, longitude := lon, latitude := lat,
                     md5 := cksum, wigos_station_identifier := some wsi,
                     datetime := some dt2, originating_centre := oc,
                     data_category := dc }, m9)

/-- The row loop's ASCII scan: the warnings recorded for the row's
non-ASCII string values (the `continue` in the source only advances this
inner scan — the row itself is still processed). -/
def ascii_warnings (row : List Value) : List String :=
  row.filterMap (fun v => match v with
    | .str s =>
      if isAsciiStr s then Option.none
      else some ("csv read error, non ASCII data detected (" ++ s ++ "), skipping row")
    | _ => Option.none)

/-- One iteration of the row loop of `transform` (`__init__.py:864`–978):
ASCII scan, row dict, WIGOS identifier (failures abort), `reset`, then the
`try` block.  Returns the yielded result (or the aborting exception) and the
re-used message state. -/
def process_row (nullify : Bool) (codec : Codec) (mp : Mappings) (cfg : WsiCfg)
    (col_names : List String) (m : BUFRMessage) (gwarn : List String) (row : List Value) :
    (Except String RowResult) × BUFRMessage :=
  if !nullify && !(ascii_warnings row).isEmpty then
    (.error "csv read error, non ASCII data detected", m)
  else
    let g0 := gwarn ++ (if nullify then ascii_warnings row else [])
    let d0 := mkDict col_names row
    match extract_wsi nullify cfg d0 with
    | (.error e, _) => (.error e, m)
    | (.ok (wsi, d), wW) =>
      (.ok (row_try nullify codec mp wsi d (g0 ++ wW) m.reset).1,
       (row_try nullify codec mp wsi d (g0 ++ wW) m.reset).2)

/-- The row iteration of `transform`: each yielded result clears the global
warnings; an uncaught exception ends the generator after the results already
yielded. -/
def run_rows (nullify : Bool) (codec : Codec) (mp : Mappings) (cfg : WsiCfg)
    (col_names : List String) :
    BUFRMessage → List String → List (List Value) → List RowResult × Option String
  | _, _, [] => ([], Option.none)
  | m, gwarn, row :: rest =>
    match process_row nullify codec mp cfg col_names m gwarn row with
    | (.error e, _) => ([], some e)
    | (.ok r, m') =>
      match run_rows nullify codec mp cfg col_names m' [] rest with
      | (rs, err) => (r :: rs, err)

/-- The `transform` preamble's delimiter check, whose warning lands in the
global warnings seen by the first row. -/
def setup_warnings (mp : Mappings) : List String :=
  match mp.delimiter with
  | some d =>
    if d ∈ [",", ";", "|", "\t"] then []
    else ["Invalid delimiter specified in mapping template, reverting to comma"]
  | Option.none => []

/-- `transform(data, mappings)` (`__init__.py:702`) from the point where the
CSV text has been read into rows of values and the `BUFRMessage` has been
constructed from the template's descriptors by the external codec: WIGOS
setup, header-row skipping and column-name capture, then the row loop.
Returns the yielded row results and, possibly, the exception that aborted
the batch. -/
def transform (nullify : Bool) (codec : Codec) (mp : Mappings) (m : BUFRMessage)
    (rows : List (List Value)) : List RowResult × Option String :=
  match wsi_setup mp with
  | .error e => ([], some e)
  | .ok cfg =>
    let skip := mp.number_header_rows
    let cnr : ℤ := (mp.column_names_row : ℤ) - 1
    if skip > 0 ∧ rows.length < skip then ([], some "StopIteration reading header rows")
    else
      let dataRows := rows.drop skip
      let col_names? : Option (List String) :=
        if skip > 0 ∧ 0 ≤ cnr ∧ cnr.toNat < skip then
          (rows.get? cnr.toNat).map (fun r => r.map pyStr)
        else Option.none
      match col_names? with
      | Option.none =>
        if dataRows.isEmpty then ([], Option.none)
        else ([], some "NameError: col_names referenced before assignment")
      | some col_names =>
        run_rows nullify codec mp cfg col_names m (setup_warnings mp) dataRows

/-- The sentinel normalization `if value in MISSING: value = None` applied at
lines 613 and 652 of `parse`. -/
def normalize (v : Value) : Value := if v.inMISSING then .null else v

/-- Fixture: a message whose single key is a float-typed data field. -/
def msgC3 : BUFRMessage :=
  { dict := [("#1#pressure", { value := Value.null, type := "float" })] }

/-- Fixture: a data-section field spec whose value, bounds, scale and offset
are all resolved from row columns. -/
def elemC3 : FieldSpec :=
  { eccodes_key := "#1#pressure", value := "data:pressure",
    valid_min := some "data:vmin", valid_max := some "data:vmax",
    scale := some "data:vs", offset := some "data:vo" }

/-- Fixture: the row read by `elemC3`. -/
def dataC3 (v mn mx : ℚ) (sc : ℤ) (o : ℚ) : Row :=
  [("pressure", .float v), ("vmin", .float mn), ("vmax", .float mx),
   ("vs", .int sc), ("vo", .float o)]

/-- Fixture: the specification's pressure scenario (scale `const:2`, offset
`const:0`, no bounds). -/
def elemScn : FieldSpec :=
  { eccodes_key := "#1#pressure", value := "data:pressure",
    scale := some "const:2", offset := some "const:0" }

/-- Fixture: a codec that always encodes to the given bytes. -/
def codecBytes (b : List ℕ) : Codec := fun _ => .bytes b

/-- Fixture: a codec whose packing raises a `CodesInternalError`. -/
def codecPackInt (msg : String) : Codec := fun _ => .packInternal msg

/-- Fixture: a header field spec carrying a constant value. -/
def hdrEl (k : String) (v : ℤ) : FieldSpec :=
  { eccodes_key := k, value := "const:" ++ toString v }

/-- Fixture: a message with the five typical date/time header keys. -/
def msgT : BUFRMessage :=
  { dict :=
      [("typicalYear", { value := Value.null, type := "int" }),
       ("typicalMonth", { value := Value.null, type := "int" }),
       ("typicalDay", { value := Value.null, type := "int" }),
       ("typicalHour", { value := Value.null, type := "int" }),
       ("typicalMinute", { value := Value.null, type := "int" })] }

/-- Fixture: a template filling the typical date/time from constants, with a
constant WIGOS identifier. -/
def mpT : Mappings :=
  { header := [hdrEl "typicalYear" 2023, hdrEl "typicalMonth" 1, hdrEl "typicalDay" 2,
               hdrEl "typicalHour" 3, hdrEl "typicalMinute" 4],
    data := [],
    wigos_station_identifier := some "const:0-20000-0-123" }

/-- Fixture: like `mpT` but reading the WIGOS identifier from the `wsi`
column. -/
def mpW : Mappings :=
  { header := mpT.header, data := [],
    wigos_station_identifier := some "data:wsi" }

/-- Fixture: a field spec resolving a plain data column. -/
def elemNA : FieldSpec := { eccodes_key := "#1#pressure", value := "data:p" }

/-- Fixture: a row carrying the sentinel string `"NA"`. -/
def dataNA : Row := [("p", Value.str "NA")]

/-- Fixture: a message with a single int-typed key. -/
def msgInt1 : BUFRMessage :=
  { dict := [("#1#pressure", { value := Value.null, type := "int" })] }

/-- Fixture: `msgInt1` after storing the string `"7"` (parsed via
`int(float("7"))`). -/
def msgInt1s : BUFRMessage :=
  { dict := [("#1#pressure", { value := Value.int 7, type := "int" })] }

/-- Fixture: the row dict of the single-column row `["x"]` after the WIGOS
components of `0-20000-0-123` have been inserted. -/
def dW : Row :=
  [("col", Value.str "x"), ("_wsi_series", Value.str "0"),
   ("_wsi_issuer", Value.str "20000"), ("_wsi_issue_number", Value.str "0"),
   ("_wsi_local", Value.str "123")]

/-- Fixture: `msgT` after `parse` has stored the constant typical date/time
of `mpT`. -/
def msgTset : BUFRMessage :=
  { dict :=
      [("typicalYear", { value := Value.int 2023, type := "int" }),
       ("typicalMonth", { value := Value.int 1, type := "int" }),
       ("typicalDay", { value := Value.int 2, type := "int" }),
       ("typicalHour", { value := Value.int 3, type := "int" }),
       ("typicalMinute", { value := Value.int 4, type := "int" })] }

end Csv2Bufr

namespace Csv2Bufr

/-- A value with a numeric view is not `None`. -/
theorem toQ?_ne_null {v : Value} {q : ℚ} (h : v.toQ? = some q) : v ≠ Value.null := by
  intro he
  subst he
  simp [Value.toQ?] at h

/-- `pow(10, s)` of an integral numeric scale is `10 ^ s`. -/
theorem pow10_of_toQ? {s : Value} {qs : ℚ} (h : s.toQ? = some qs) (hden : qs.den = 1) :
    pow10 s = some ((10 : ℚ) ^ qs.num) := by
  cases s with
  | int sn =>
    rw [Value.toQ?, Option.some_inj] at h
    rw [pow10, ← h, Rat.num_intCast]
  | float sq =>
    rw [Value.toQ?, Option.some_inj] at h
    subst h
    rw [pow10, if_pos hden]
  | null => exact absurd h (by simp [Value.toQ?])
  | str _ => exact absurd h (by simp [Value.toQ?])
  | arr _ => exact absurd h (by simp [Value.toQ?])

/-- Characterization of the all-`int` scaling case. -/
theorem intResult?_some {v s o : Value} {n : ℤ} (h : intResult? v s o = some n) :
    ∃ n0 sn om, v = .int n0 ∧ s = .int sn ∧ o = .int om ∧ 0 ≤ sn ∧
      n = n0 * 10 ^ sn.toNat + om := by
  cases v <;> cases s <;> cases o <;> simp_all [intResult?]

/-- Casting the all-`int` scaling result to `ℚ` gives the scaling formula. -/
theorem intResult_cast (n0 sn om : ℤ) (hsn : 0 ≤ sn) :
    ((n0 * 10 ^ sn.toNat + om : ℤ) : ℚ) = (n0 : ℚ) * (10 : ℚ) ^ sn + (om : ℚ) := by
  have h10 : (10 : ℚ) ^ sn = (10 : ℚ) ^ sn.toNat := by
    rw [← zpow_natCast, Int.toNat_of_nonneg hsn]
  rw [h10]
  push_cast
  ring

/-- C1: for every numeric value `v` and numeric scale `s` (of integral value,
as BUFR scales are) and numeric offset `o`, `apply_scaling(v, s, o)` returns
`v * 10^s + o`; if `v` is non-numeric, or `scale` is `None`, or `offset` is
`None`, `apply_scaling` returns `v` unchanged. -/
theorem apply_scaling_spec :
    (∀ (v s o : Value) (qv qs qo : ℚ), v.toQ? = some qv → s.toQ? = some qs →
      o.toQ? = some qo → qs.den = 1 →
      ∃ r : Value, apply_scaling v s o = .ok r ∧
        r.toQ? = some (qv * (10 : ℚ) ^ qs.num + qo))
    ∧ (∀ v o : Value, apply_scaling v Value.null o = .ok v)
    ∧ (∀ v s : Value, apply_scaling v s Value.null = .ok v)
    ∧ (∀ v s o : Value, v.toQ? = Option.none → apply_scaling v s o = .ok v) := by
  refine ⟨?_, ?_, ?_, ?_⟩
  · intro v s o qv qs qo hv hs ho hden
    have hnum : v.isNumeric = true := by rw [Value.isNumeric, hv]; rfl
    have hsnull : ¬ (s = Value.null ∨ o = Value.null) := by
      rintro (h | h)
      · exact toQ?_ne_null hs h
      · exact toQ?_ne_null ho h
    have hp : pow10 s = some ((10 : ℚ) ^ qs.num) := pow10_of_toQ? hs hden
    rcases hir : intResult? v s o with _ | n
    · refine ⟨.float (qv * (10 : ℚ) ^ qs.num + qo), ?_, rfl⟩
      rw [apply_scaling, if_pos hnum, if_neg hsnull, hir, hv, hp, ho]
    · obtain ⟨n0, sn, om, rfl, rfl, rfl, hsn, rfl⟩ := intResult?_some hir
      refine ⟨.int (n0 * 10 ^ sn.toNat + om), ?_, ?_⟩
      · rw [apply_scaling, if_pos hnum, if_neg hsnull, hir]
      · rw [Value.toQ?, Option.some_inj, intResult_cast n0 sn om hsn]
        rw [Value.toQ?, Option.some_inj] at hv hs ho
        rw [← hv, ← hs, ← ho, Rat.num_intCast]
  · intro v o
    by_cases h : v.isNumeric <;> simp [apply_scaling, h]
  · intro v s
    by_cases h : v.isNumeric <;> simp [apply_scaling, h]
  · intro v s o hv
    have h : v.isNumeric = false := by rw [Value.isNumeric, hv]; rfl
    simp [apply_scaling, h]

/-- Witness for C1 at concrete inputs, including the non-numeric and
missing-scale/offset pass-through cases. -/
theorem apply_scaling_spec_witness :
    (∃ r : Value, apply_scaling (.int 100130) (.int 2) (.int 0) = .ok r ∧
      r.toQ? = some 10013000)
    ∧ apply_scaling (.str "NA") (.int 1) (.int 1) = .ok (.str "NA")
    ∧ apply_scaling (.float 5) Value.null (.int 1) = .ok (.float 5)
    ∧ apply_scaling (.float 5) (.int 1) Value.null = .ok (.float 5) := by
  refine ⟨?_, ?_, ?_, ?_⟩
  · obtain ⟨r, h1, h2⟩ := apply_scaling_spec.1 (.int 100130) (.int 2) (.int 0)
      100130 2 0 rfl rfl rfl (by norm_num)
    exact ⟨r, h1, by rw [h2]; norm_num⟩
  · exact apply_scaling_spec.2.2.2 (.str "NA") (.int 1) (.int 1) rfl
  · exact apply_scaling_spec.2.1 (.float 5) (.int 1)
  · exact apply_scaling_spec.2.2.1 (.float 5) (.int 1)

/-- Reduction of `validate_value` on a numeric value with numeric bounds:
the check is `value > valid_max or value < valid_min`. -/
theorem validate_value_numeric (k : String) (v mn mx : Value) (b : Bool)
    (qv qmn qmx : ℚ) (hv : v.toQ? = some qv) (hmn : mn.toQ? = some qmn)
    (hmx : mx.toQ? = some qmx) :
    validate_value k v mn mx b =
      if qv > qmx ∨ qv < qmn then
        (if b then (.ok Value.null, [k ++ ": Value out of valid range; Element set to missing"])
         else (.error (k ++ ": Value out of valid range"), []))
      else (.ok v, []) := by
  have hvn := toQ?_ne_null hv
  have hmnn := toQ?_ne_null hmn
  have hmxn := toQ?_ne_null hmx
  by_cases h1 : qv > qmx
  · simp [validate_value, hv, hmn, hmx, hvn, hmnn, hmxn, h1]
  · by_cases h2 : qv < qmn
    · simp [validate_value, hv, hmn, hmx, hvn, hmnn, hmxn, h1, h2]
    · simp [validate_value, hv, hmn, hmx, hvn, hmnn, hmxn, h1, h2]

/-- C2: for every numeric value `v` with both numeric bounds present,
strict-mode range validation returns `v` unchanged iff
`valid_min ≤ v ≤ valid_max` (inclusive) and raises otherwise; with
`nullify_on_fail` it never raises and returns `None` exactly when `v` is out
of bounds; with either bound `None`, no check occurs and `v` is returned
unchanged. -/
theorem validate_value_spec :
    (∀ (k : String) (v mn mx : Value) (qv qmn qmx : ℚ),
      v.toQ? = some qv → mn.toQ? = some qmn → mx.toQ? = some qmx →
      (((qmn ≤ qv ∧ qv ≤ qmx) → validate_value k v mn mx false = (.ok v, []))
       ∧ (¬(qmn ≤ qv ∧ qv ≤ qmx) →
          validate_value k v mn mx false = (.error (k ++ ": Value out of valid range"), []))
       ∧ validate_value k v mn mx true =
          (if qmn ≤ qv ∧ qv ≤ qmx then (.ok v, [])
           else (.ok Value.null,
             [k ++ ": Value out of valid range; Element set to missing"]))))
    ∧ (∀ (k : String) (v mx : Value) (b : Bool) (qv : ℚ), v.toQ? = some qv →
        validate_value k v Value.null mx b = (.ok v, []))
    ∧ (∀ (k : String) (v mn : Value) (b : Bool) (qv : ℚ), v.toQ? = some qv →
        validate_value k v mn Value.null b = (.ok v, [])) := by
  refine ⟨?_, ?_, ?_⟩
  · intro k v mn mx qv qmn qmx hv hmn hmx
    have hred := fun b => validate_value_numeric k v mn mx b qv qmn qmx hv hmn hmx
    have hiff : ¬(qv > qmx ∨ qv < qmn) ↔ (qmn ≤ qv ∧ qv ≤ qmx) := by
      constructor
      · intro h
        push_neg at h
        exact ⟨h.2, h.1⟩
      · intro h
        push_neg
        exact ⟨h.2, h.1⟩
    refine ⟨?_, ?_, ?_⟩
    · intro hin
      rw [hred false, if_neg (hiff.mpr hin)]
    · intro hout
      rw [hred false, if_pos (by
        by_contra hc
        exact hout (hiff.mp hc))]
      simp
    · rw [hred true]
      by_cases hin : qmn ≤ qv ∧ qv ≤ qmx
      · rw [if_neg (hiff.mpr hin), if_pos hin]
      · rw [if_pos (by
          by_contra hc
          exact hin (hiff.mp hc)), if_neg hin]
        simp
  · intro k v mx b qv hv
    simp [validate_value, hv, toQ?_ne_null hv]
  · intro k v mn b qv hv
    simp [validate_value, hv, toQ?_ne_null hv]

/-- Witness for C2 at concrete inputs (latitude 95 against bounds ±90, in
and out of range, both policies, and a single-bound no-op). -/
theorem validate_value_spec_witness :
    validate_value "lat" (.float 95) (.float (-90)) (.float 90) false =
      (.error "lat: Value out of valid range", [])
    ∧ validate_value "lat" (.float 80) (.float (-90)) (.float 90) false =
      (.ok (.float 80), [])
    ∧ validate_value "lat" (.float 95) (.float (-90)) (.float 90) true =
      (.ok Value.null, ["lat: Value out of valid range; Element set to missing"])
    ∧ validate_value "lat" (.float 80) (.float (-90)) (.float 90) true =
      (.ok (.float 80), [])
    ∧ validate_value "lat" (.float 95) Value.null (.float 90) false =
      (.ok (.float 95), []) := by
  refine ⟨?_, ?_, ?_, ?_, ?_⟩
  · have h := (validate_value_spec.1 "lat" (.float 95) (.float (-90)) (.float 90)
      95 (-90) 90 rfl rfl rfl).2.1 (by norm_num)
    rw [h]
    rfl
  · exact (validate_value_spec.1 "lat" (.float 80) (.float (-90)) (.float 90)
      80 (-90) 90 rfl rfl rfl).1 (by norm_num)
  · rw [(validate_value_spec.1 "lat" (.float 95) (.float (-90)) (.float 90)
      95 (-90) 90 rfl rfl rfl).2.2]
    norm_num
    rfl
  · rw [(validate_value_spec.1 "lat" (.float 80) (.float (-90)) (.float 90)
      80 (-90) 90 rfl rfl rfl).2.2]
    norm_num
  · exact validate_value_spec.2.1 "lat" (.float 95) (.float 90) false 95 rfl

/-- C5 counterexample: `metadata:<key>` is not an accepted expression kind —
even with the key present in the supplied dict, `parse_value` raises the
unrecognised-kind `ValueError` instead of resolving the key. -/
theorem parse_value_metadata_cex :
    parse_value true "metadata:station" (some [("station", Value.str "X")]) =
      (.error "Data type (metadata) not recognised in mapping: metadata:station", []) := rfl

/-- C5 amended: the value-expression resolver recognises only the kinds
`const`, `data`, `array` and the empty kind; for every policy and every
data dict (present, absent, or holding the key), `metadata:<key>` is
rejected as an unrecognised data type with a `ValueError`, with no warning
recorded. -/
theorem parse_value_metadata_amended (nullify : Bool) (data : Option Row) :
    parse_value nullify "metadata:station" data =
      (.error "Data type (metadata) not recognised in mapping: metadata:station", []) := rfl

/-- Key lookup after an in-place update of one key's entry. -/
theorem alookup_map_ite (l : List (String × Entry)) (k : String) (f : Entry → Entry) :
    alookup (l.map (fun p => if p.1 = k then (p.1, f p.2) else p)) k =
      (alookup l k).map f := by
  induction l with
  | nil => rfl
  | cons p l ih =>
    obtain ⟨a, e⟩ := p
    by_cases ha : a = k
    · subst ha
      rw [List.map_cons, if_pos (show ((a, e) : String × Entry).1 = a from rfl)]
      simp [alookup]
    · rw [List.map_cons, if_neg (show ¬ ((a, e) : String × Entry).1 = k from ha)]
      simp [alookup, Ne.symm ha, ih]

/-- `setValue` rewrites exactly the stored value of the given key. -/
theorem alookup_setValue (m : BUFRMessage) (k : String) (v : Value) :
    alookup (m.setValue k v).dict k =
      (alookup m.dict k).map (fun e => { e with value := v }) := by
  show alookup (m.dict.map (fun p => if p.1 = k then (p.1, { p.2 with value := v }) else p)) k = _
  exact alookup_map_ite m.dict k (fun e => { e with value := v })

/-- The `set_element` coercion is idempotent: coercing an already-coerced
value again returns it unchanged with no further warnings. -/
theorem coerce_value_idem (nullify : Bool) (t : String) (v v1 : Value) (w : List String)
    (h : coerce_value nullify t v = (.ok v1, w)) :
    coerce_value nullify t v1 = (.ok v1, []) := by
  by_cases ht : t = "int"
  · subst ht
    cases v with
    | null =>
      simp [coerce_value] at h
      rw [← h.1]
      simp [coerce_value]
    | arr l =>
      simp [coerce_value] at h
      rw [← h.1]
      simp [coerce_value]
    | int n =>
      simp [coerce_value] at h
      rw [← h.1]
      simp [coerce_value]
    | float q =>
      simp [coerce_value] at h
      rw [← h.1]
      simp [coerce_value]
    | str s =>
      rcases hps : pyFloat? s with _ | q
      · cases nullify with
        | true =>
          simp [coerce_value, hps] at h
          rw [← h.1]
          simp [coerce_value]
        | false =>
          simp [coerce_value, hps] at h
      · simp [coerce_value, hps] at h
        rw [← h.1]
        simp [coerce_value]
  · by_cases hf : t = "float"
    · subst hf
      cases v with
      | null =>
        simp [coerce_value] at h
        rw [← h.1]
        simp [coerce_value]
      | arr l =>
        simp [coerce_value] at h
        rw [← h.1]
        simp [coerce_value]
      | int n =>
        simp [coerce_value] at h
        rw [← h.1]
        simp [coerce_value]
      | float q =>
        simp [coerce_value] at h
        rw [← h.1]
        simp [coerce_value]
      | str s =>
        rcases hps : pyFloat? s with _ | q
        · cases nullify with
          | true =>
            simp [coerce_value, hps] at h
            rw [← h.1]
            simp [coerce_value]
          | false =>
            simp [coerce_value, hps] at h
        · simp [coerce_value, hps] at h
          rw [← h.1]
          simp [coerce_value]
    · cases v with
      | null =>
        simp [coerce_value] at h
        rw [← h.1]
        simp [coerce_value]
      | arr l =>
        simp [coerce_value] at h
        rw [← h.1]
        simp [coerce_value]
      | int n =>
        simp [coerce_value, ht, hf] at h
        rw [← h.1]
        simp [coerce_value, ht, hf]
      | float q =>
        simp [coerce_value, ht, hf] at h
        rw [← h.1]
        simp [coerce_value, ht, hf]
      | str s =>
        simp [coerce_value, ht, hf] at h
        rw [← h.1]
        simp [coerce_value, ht, hf]

/-- C8: coercion is idempotent: after `set_element` stores a value for a
registered key, `set(key, get(key))` re-stores the same value and leaves
both the stored value and the entry's native type unchanged. -/
theorem set_get_idempotent (nullify : Bool) (m : BUFRMessage) (key : String)
    (v : Value) (m1 : BUFRMessage)
    (hk : splitArrow key = [key])
    (h : set_element nullify m key v = .ok m1) :
    ∃ v1 m2, (get_element nullify m1 key).1 = .ok v1 ∧
      set_element nullify m1 key v1 = .ok m2 ∧
      (alookup m2.dict key).map Entry.value = (alookup m1.dict key).map Entry.value ∧
      (alookup m2.dict key).map Entry.type = (alookup m.dict key).map Entry.type := by
  unfold set_element at h
  split at h
  · exact absurd h (by simp)
  · rename_i e hm
    split at h
    case _ heq =>
      rename_i cv w
      have hc := heq
      simp only [Except.ok.injEq] at h
      have hm1 : alookup m1.dict key = some { e with value := cv } := by
        rw [← h]
        show alookup (m.setValue key cv).dict key = _
        rw [alookup_setValue, hm]
        rfl
      have hidem := coerce_value_idem nullify e.type v cv w hc
      refine ⟨cv, { BUFRMessage.setValue m1 key cv with warnings := m1.warnings ++ [] },
        ?_, ?_, ?_, ?_⟩
      · show (get_element nullify m1 key).1 = Except.ok cv
        have hres : get_element_res m1.dict key = .ok cv := by
          unfold get_element_res
          rw [hk]
          simp only [hm1]
        unfold get_element
        rw [hres]
      · unfold set_element
        rw [hm1]
        show (match coerce_value nullify e.type cv with
          | (.ok v1, w1) => Except.ok { BUFRMessage.setValue m1 key v1 with
              warnings := m1.warnings ++ w1 }
          | (.error err, _) => Except.error err) = _
        rw [hidem]
      · show (alookup (m1.setValue key cv).dict key).map Entry.value = _
        rw [alookup_setValue, hm1]
        rfl
      · show (alookup (m1.setValue key cv).dict key).map Entry.type = _
        rw [alookup_setValue, hm1, hm]
        rfl
    case _ err w2 heq =>
      exact absurd h (by simp)

/-- Witness for C8: the string `"7"` stored into an int-typed entry, then
re-set from `get`. -/
theorem set_get_idempotent_witness :
    ∃ v1 m2, (get_element true msgInt1s "#1#pressure").1 = .ok v1 ∧
      set_element true msgInt1s "#1#pressure" v1 = .ok m2 ∧
      (alookup m2.dict "#1#pressure").map Entry.value =
        (alookup msgInt1s.dict "#1#pressure").map Entry.value ∧
      (alookup m2.dict "#1#pressure").map Entry.type =
        (alookup msgInt1.dict "#1#pressure").map Entry.type :=
  set_get_idempotent true msgInt1 "#1#pressure" (Value.str "7") msgInt1s rfl rfl

/-- C3: in `parse`, range validation is applied to the raw (pre-scaling,
already-type-converted) value and scaling is applied only after validation,
so `valid_min`/`valid_max` are in raw units: with value, bounds, scale `sc`
and offset all row-resolved, the stored value is the scaled
`v * 10^sc + o` when the raw `v` is within bounds and `None` otherwise
(nullify policy).  In particular the spec's pressure scenario
(`value_expr="data:pressure"`, row value 100130, scale `const:2`, offset
`const:0`) stores 10013000. -/
theorem parse_raw_validation_then_scaling (v mn mx : ℚ) (sc : ℤ) (o : ℚ) :
    ((alookup (parse_element true msgC3 [elemC3] elemC3 (dataC3 v mn mx sc o)).2.1.dict
        "#1#pressure").map Entry.value =
      some (if mn ≤ v ∧ v ≤ mx then Value.float (v * (10 : ℚ) ^ sc + o) else Value.null))
    ∧ (alookup (parse_element true msgC3 [elemScn] elemScn
        [("pressure", Value.float 100130)]).2.1.dict "#1#pressure").map Entry.value =
      some (Value.float 10013000) := by
  constructor
  · have hget : get_ true elemC3.eccodes_key [elemC3] (some (dataC3 v mn mx sc o)) =
        (.ok (.float v), []) := rfl
    have hconv : convert_stage msgC3 elemC3.eccodes_key (Value.float v) =
        .ok (Value.float v) := rfl
    have hmin : resolve_opt true elemC3.valid_min (dataC3 v mn mx sc o) =
        (.ok (.float mn), []) := rfl
    have hmax : resolve_opt true elemC3.valid_max (dataC3 v mn mx sc o) =
        (.ok (.float mx), []) := rfl
    have hnum := validate_value_numeric elemC3.eccodes_key (Value.float v) (Value.float mn)
      (Value.float mx) true v mn mx rfl rfl rfl
    by_cases h1 : v > mx ∨ v < mn
    · have h2 : ¬(mn ≤ v ∧ v ≤ mx) := by
        rcases h1 with h | h
        · intro hc
          linarith [hc.2]
        · intro hc
          linarith [hc.1]
      have hval : validation_stage true elemC3.eccodes_key (Value.float v) (Value.float mn)
          (Value.float mx) =
          (.ok Value.null,
           [elemC3.eccodes_key ++ ": Value out of valid range; Element set to missing"], []) := by
        unfold validation_stage
        rw [hnum, if_pos h1]
        rfl
      have hsc : scaling_stage true elemC3 (dataC3 v mn mx sc o) Value.null =
          (.ok Value.null, []) := rfl
      rw [if_neg h2]
      simp only [parse_element, hget, hconv, hmin, hmax, hval, hsc]
      rfl
    · have h2 : mn ≤ v ∧ v ≤ mx := by
        push_neg at h1
        exact ⟨h1.2, h1.1⟩
      have hval : validation_stage true elemC3.eccodes_key (Value.float v) (Value.float mn)
          (Value.float mx) = (.ok (Value.float v), [], []) := by
        unfold validation_stage
        rw [hnum, if_neg h1]
      have hsc : scaling_stage true elemC3 (dataC3 v mn mx sc o) (Value.float v) =
          (.ok (.float (v * (10 : ℚ) ^ sc + o)), []) := rfl
      rw [if_pos h2]
      simp only [parse_element, hget, hconv, hmin, hmax, hval, hsc]
      rfl
  · have hget2 : get_ true elemScn.eccodes_key [elemScn]
        (some [("pressure", Value.float 100130)]) = (.ok (.float 100130), []) := rfl
    have hconv2 : convert_stage msgC3 elemScn.eccodes_key (Value.float 100130) =
        .ok (Value.float 100130) := rfl
    have hmin2 : resolve_opt true elemScn.valid_min [("pressure", Value.float 100130)] =
        (.ok Value.null, []) := rfl
    have hmax2 : resolve_opt true elemScn.valid_max [("pressure", Value.float 100130)] =
        (.ok Value.null, []) := rfl
    have hval2 : validation_stage true elemScn.eccodes_key (Value.float 100130)
        Value.null Value.null = (.ok (.float 100130), [], []) := rfl
    have hsc2 : scaling_stage true elemScn [("pressure", Value.float 100130)]
        (.float 100130) =
        (.ok (.float ((100130 : ℚ) * (10 : ℚ) ^ (2 : ℤ) + ((0 : ℤ) : ℚ))), []) := rfl
    have heq : (100130 : ℚ) * (10 : ℚ) ^ (2 : ℤ) + ((0 : ℤ) : ℚ) = 10013000 := by
      norm_num
    simp only [parse_element, hget2, hconv2, hmin2, hmax2, hval2, hsc2, heq]
    rfl

/-- A numeric value is not a missing sentinel. -/
theorem toQ?_not_inMISSING {v : Value} {q : ℚ} (h : v.toQ? = some q) :
    v.inMISSING = false := by
  cases v <;> simp_all [Value.toQ?, Value.inMISSING]

/-- A sentinel resolved value is normalized to `None` before conversion. -/
theorem convert_stage_missing (m : BUFRMessage) (key : String) {v0 : Value}
    (h : v0.inMISSING = true) : convert_stage m key v0 = .ok Value.null := by
  rw [convert_stage, if_pos h]

/-- The converted value is a sentinel only if it is `None`. -/
theorem convert_stage_inv {m : BUFRMessage} {key : String} {v0 v1 : Value}
    (h : convert_stage m key v0 = .ok v1) : v1.inMISSING = true → v1 = Value.null := by
  intro hm
  rw [convert_stage] at h
  by_cases h0 : v0.inMISSING
  · rw [if_pos h0] at h
    exact (Except.ok.injEq _ _).mp h.symm
  · rw [if_neg h0] at h
    split at h
    · exact absurd h (by simp)
    · split at h
      · split at h
        · rename_i q heq
          rw [← (Except.ok.injEq _ _).mp h] at hm
          simp [Value.inMISSING] at hm
        · exact absurd h (by simp)
      · rw [← (Except.ok.injEq _ _).mp h] at hm
        simp at h0
        exact absurd hm (by simp [h0])

/-- `validate_value` returns either its input or `None` when it succeeds. -/
theorem validate_value_shape {k : String} {v mn mx : Value} {b : Bool} {v1 : Value}
    {w : List String} (h : validate_value k v mn mx b = (.ok v1, w)) :
    v1 = v ∨ v1 = Value.null := by
  simp only [validate_value] at h
  split at h
  · exact Or.inl (by simp_all)
  · split at h
    · exact Or.inl (by simp_all)
    · split at h
      · split at h
        · exact absurd h (by simp)
        · split at h
          · split at h
            · exact Or.inr (by simp_all)
            · exact absurd h (by simp)
          · split at h
            · exact absurd h (by simp)
            · split at h
              · split at h
                · exact Or.inr (by simp_all)
                · exact absurd h (by simp)
              · exact Or.inl (by simp_all)
      · exact Or.inl (by simp_all)

/-- The validation stage returns either its input or `None` when it does not
propagate an exception. -/
theorem validation_stage_shape {nfy : Bool} {k : String} {v1 mn mx v2 : Value}
    {wg wm : List String} (h : validation_stage nfy k v1 mn mx = (.ok v2, wg, wm)) :
    v2 = v1 ∨ v2 = Value.null := by
  unfold validation_stage at h
  split at h
  · rename_i v' w heq
    have hsh := validate_value_shape heq
    simp only [Prod.mk.injEq] at h
    exact (Except.ok.injEq _ _).mp h.1 ▸ hsh
  · split at h
    · exact Or.inr (by simp_all)
    · exact absurd h (by simp)

/-- A successful `apply_scaling` returns its input or a numeric value. -/
theorem apply_scaling_shape {v s o r : Value} (h : apply_scaling v s o = .ok r) :
    r = v ∨ ∃ q, r.toQ? = some q := by
  unfold apply_scaling at h
  split at h
  · split at h
    · exact Or.inl (by simp_all)
    · split at h
      · rename_i n heq
        have hr : Value.int n = r := (Except.ok.injEq _ _).mp h
        refine Or.inr ?_
        rw [← hr]
        exact ⟨n, rfl⟩
      · split at h
        · have hr := (Except.ok.injEq _ _).mp h
          refine Or.inr ?_
          rw [← hr]
          exact ⟨_, rfl⟩
        · exact absurd h (by simp)
  · exact Or.inl (by simp_all)

/-- A (re-normalized) sentinel skips the scaling stage as `None`. -/
theorem scaling_stage_missing (nfy : Bool) (elem : FieldSpec) (data : Row) {v2 : Value}
    (h : v2.inMISSING = true) : scaling_stage nfy elem data v2 = (.ok Value.null, []) := by
  rw [scaling_stage, if_pos h]

/-- The scaled value is a sentinel only if it is `None`. -/
theorem scaling_stage_inv {nfy : Bool} {elem : FieldSpec} {data : Row} {v2 v3 : Value}
    {ws : List String} (h : scaling_stage nfy elem data v2 = (.ok v3, ws)) :
    v3.inMISSING = true → v3 = Value.null := by
  intro hm
  rw [scaling_stage] at h
  by_cases h2 : v2.inMISSING
  · rw [if_pos h2] at h
    simp only [Prod.mk.injEq] at h
    exact ((Except.ok.injEq _ _).mp h.1).symm
  · rw [if_neg h2] at h
    split at h
    · exact absurd h (by simp)
    · split at h
      · exact absurd h (by simp)
      · split at h
        · rename_i r heq
          simp only [Prod.mk.injEq] at h
          have hv3 : r = v3 := (Except.ok.injEq _ _).mp h.1
          rcases apply_scaling_shape heq with hr | ⟨q, hq⟩
          · rw [← hv3, hr] at hm
            simp at h2
            exact absurd hm (by simp [h2])
          · rw [← hv3, toQ?_not_inMISSING hq] at hm
            exact absurd hm (by simp)
        · exact absurd h (by simp)

/-- `None` coerces to `None`. -/
theorem coerce_value_null (nfy : Bool) (t : String) :
    coerce_value nfy t Value.null = (.ok Value.null, []) := rfl

/-- The coerced value is a sentinel only if it is `None`, provided the input
satisfies the same property. -/
theorem coerce_value_inv {nfy : Bool} {t : String} {v cv : Value} {w : List String}
    (h : coerce_value nfy t v = (.ok cv, w))
    (hv : v.inMISSING = true → v = Value.null) :
    cv.inMISSING = true → cv = Value.null := by
  intro hm
  cases v with
  | null =>
    rw [coerce_value_null] at h
    simp only [Prod.mk.injEq] at h
    exact ((Except.ok.injEq _ _).mp h.1).symm
  | arr l =>
    simp [coerce_value] at h
    rw [← h.1] at hm
    simp [Value.inMISSING] at hm
  | int n =>
    by_cases ht : t = "int"
    · subst ht
      simp [coerce_value] at h
      rw [← h.1] at hm
      simp [Value.inMISSING] at hm
    · by_cases hf : t = "float"
      · subst hf
        simp [coerce_value, ht] at h
        rw [← h.1] at hm
        simp [Value.inMISSING] at hm
      · simp [coerce_value, ht, hf] at h
        rw [← h.1] at hm
        simp [Value.inMISSING] at hm
  | float q =>
    by_cases ht : t = "int"
    · subst ht
      simp [coerce_value] at h
      rw [← h.1] at hm
      simp [Value.inMISSING] at hm
    · by_cases hf : t = "float"
      · subst hf
        simp [coerce_value, ht] at h
        rw [← h.1] at hm
        simp [Value.inMISSING] at hm
      · simp [coerce_value, ht, hf] at h
        rw [← h.1] at hm
        simp [Value.inMISSING] at hm
  | str st =>
    have hst : Value.inMISSING (.str st) = false := by
      by_cases hs : Value.inMISSING (.str st)
      · exact absurd (hv hs) (by simp)
      · simp at hs
        simp [hs]
    by_cases ht : t = "int"
    · subst ht
      rcases hps : pyFloat? st with _ | q
      · cases nfy with
        | true =>
          simp [coerce_value, hps] at h
          rw [← h.1] at hm ⊢
        | false => simp [coerce_value, hps] at h
      · simp [coerce_value, hps] at h
        rw [← h.1] at hm
        simp [Value.inMISSING] at hm
    · by_cases hf : t = "float"
      · subst hf
        rcases hps : pyFloat? st with _ | q
        · cases nfy with
          | true =>
            simp [coerce_value, ht, hps] at h
            rw [← h.1] at hm ⊢
          | false => simp [coerce_value, ht, hps] at h
        · simp [coerce_value, ht, hps] at h
          rw [← h.1] at hm
          simp [Value.inMISSING] at hm
      · simp [coerce_value, ht, hf] at h
        rw [← h.1, hst] at hm
        exact absurd hm (by simp)

/-- A successful `set_element` stores exactly the coerced value. -/
theorem set_element_lookup {nfy : Bool} {m : BUFRMessage} {key : String} {v : Value}
    {m2 : BUFRMessage} (h : set_element nfy m key v = .ok m2) :
    ∃ e cv w, alookup m.dict key = some e ∧ coerce_value nfy e.type v = (.ok cv, w) ∧
      (alookup m2.dict key).map Entry.value = some cv := by
  unfold set_element at h
  split at h
  · exact absurd h (by simp)
  · rename_i e hm
    split at h
    case _ cv w heq =>
      refine ⟨e, cv, w, hm, heq, ?_⟩
      have h2 : { BUFRMessage.setValue m key cv with warnings := m.warnings ++ w } = m2 :=
        (Except.ok.injEq _ _).mp h
      rw [← h2]
      show (alookup (m.setValue key cv).dict key).map Entry.value = some cv
      rw [alookup_setValue, hm]
      rfl
    case _ err w2 heq => exact absurd h (by simp)

/-- A successful `parse_element` implies the element's value resolved. -/
theorem parse_element_get_ok {nfy : Bool} {m : BUFRMessage} {mapping : List FieldSpec}
    {elem : FieldSpec} {data : Row} {m2 : BUFRMessage} {gw : List String}
    (hpe : parse_element nfy m mapping elem data = (.ok (), m2, gw)) :
    ∃ v0 w0, get_ nfy elem.eccodes_key mapping (some data) = (.ok v0, w0) := by
  simp only [parse_element] at hpe
  split at hpe
  · exact absurd hpe (by simp)
  · rename_i v0 w0 heq
    exact ⟨v0, w0, heq⟩

/-- The stored value of a field after a successful `parse_element`, with the
sentinel-normalization facts: it is `None` whenever it is a sentinel, and it
is `None` whenever the resolved value was a sentinel. -/
theorem parse_element_stored {nfy : Bool} {m : BUFRMessage} {mapping : List FieldSpec}
    {elem : FieldSpec} {data : Row} {m2 : BUFRMessage} {gw : List String}
    {v0 : Value} {w0 : List String}
    (hpe : parse_element nfy m mapping elem data = (.ok (), m2, gw))
    (hget : get_ nfy elem.eccodes_key mapping (some data) = (.ok v0, w0)) :
    ∃ cv, (alookup m2.dict elem.eccodes_key).map Entry.value = some cv ∧
      (cv.inMISSING = true → cv = Value.null) ∧
      (v0.inMISSING = true → cv = Value.null) := by
  simp only [parse_element] at hpe
  split at hpe
  · exact absurd hpe (by simp)
  · rename_i v0x w0x heq
    rw [hget] at heq
    simp only [Prod.mk.injEq, Except.ok.injEq] at heq
    obtain ⟨hv0, -⟩ := heq
    subst hv0
    split at hpe
    · exact absurd hpe (by simp)
    · rename_i v1 hconv
      split at hpe
      · exact absurd hpe (by simp)
      · rename_i vmin w1 hminq
        split at hpe
        · exact absurd hpe (by simp)
        · rename_i vmax w2 hmaxq
          split at hpe
          · exact absurd hpe (by simp)
          · rename_i v2 wgv wm hvalq
            split at hpe
            · exact absurd hpe (by simp)
            · rename_i v3 ws hscq
              split at hpe
              · rename_i m2x hsetq
                simp only [Prod.mk.injEq] at hpe
                obtain ⟨-, hm2, -⟩ := hpe
                subst hm2
                obtain ⟨e, cv, w, hae, hcoe, hlook⟩ := set_element_lookup hsetq
                have hv1 : v1.inMISSING = true → v1 = Value.null := convert_stage_inv hconv
                have hv3 : v3.inMISSING = true → v3 = Value.null := scaling_stage_inv hscq
                refine ⟨cv, hlook, coerce_value_inv hcoe hv3, ?_⟩
                intro h0
                have h1 : v1 = Value.null := by
                  rw [convert_stage_missing m elem.eccodes_key h0] at hconv
                  exact ((Except.ok.injEq _ _).mp hconv).symm
                have h2v : v2 = Value.null := by
                  rcases validation_stage_shape hvalq with h12 | h12
                  · rw [h12]
                    exact h1
                  · exact h12
                have h3 : v3 = Value.null := by
                  have hms : scaling_stage nfy elem data v2 = (.ok Value.null, []) := by
                    apply scaling_stage_missing
                    rw [h2v]
                    rfl
                  rw [hms] at hscq
                  simp only [Prod.mk.injEq, Except.ok.injEq] at hscq
                  exact hscq.1.symm
                rw [h3, coerce_value_null] at hcoe
                simp only [Prod.mk.injEq, Except.ok.injEq] at hcoe
                exact hcoe.1.symm
              · exact absurd hpe (by simp)

/-- C4: a sentinel value (`"NA"`, `"NaN"`, `"NAN"`, `"None"`, `""`) resolved
for a field is normalized to `None` before scaling and stored as `None`; the
stored post-scaling value is never a sentinel other than `None` (so the
re-normalization can never see a non-`None` sentinel after scaling); and the
normalization is idempotent. -/
theorem sentinel_normalization_spec :
    (∀ v : Value, normalize (normalize v) = normalize v)
    ∧ (∀ (nfy : Bool) (m : BUFRMessage) (mapping : List FieldSpec) (elem : FieldSpec)
        (data : Row) (m2 : BUFRMessage) (gw : List String) (v0 : Value) (w0 : List String),
        parse_element nfy m mapping elem data = (.ok (), m2, gw) →
        get_ nfy elem.eccodes_key mapping (some data) = (.ok v0, w0) →
        v0.inMISSING = true →
        (alookup m2.dict elem.eccodes_key).map Entry.value = some Value.null)
    ∧ (∀ (nfy : Bool) (m : BUFRMessage) (mapping : List FieldSpec) (elem : FieldSpec)
        (data : Row) (m2 : BUFRMessage) (gw : List String) (sv : Value),
        parse_element nfy m mapping elem data = (.ok (), m2, gw) →
        (alookup m2.dict elem.eccodes_key).map Entry.value = some sv →
        sv.inMISSING = true → sv = Value.null) := by
  refine ⟨?_, ?_, ?_⟩
  · intro v
    by_cases h : v.inMISSING
    · have hn : normalize v = Value.null := by
        rw [normalize, if_pos h]
      rw [hn, normalize]
      rfl
    · have hn : normalize v = v := by
        rw [normalize, if_neg h]
      rw [hn]
      exact hn
  · intro nfy m mapping elem data m2 gw v0 w0 hpe hget h0
    obtain ⟨cv, hlook, -, hmiss⟩ := parse_element_stored hpe hget
    rw [hlook, hmiss h0]
  · intro nfy m mapping elem data m2 gw sv hpe hsv hm
    obtain ⟨v0, w0, hget⟩ := parse_element_get_ok hpe
    obtain ⟨cv, hlook, hinv, -⟩ := parse_element_stored hpe hget
    rw [hsv] at hlook
    have : sv = cv := by
      simp only [Option.some_inj] at hlook
      exact hlook
    rw [this] at hm ⊢
    exact hinv hm

/-- Witness for C4: the row value `"NA"` is stored as `None`; the stored
value satisfies the no-sentinel invariant; idempotence at `"NA"`. -/
theorem sentinel_normalization_spec_witness :
    normalize (normalize (Value.str "NA")) = normalize (Value.str "NA")
    ∧ (alookup msgC3.dict "#1#pressure").map Entry.value = some Value.null
    ∧ Value.null = Value.null := by
  refine ⟨sentinel_normalization_spec.1 (Value.str "NA"), ?_, ?_⟩
  · exact sentinel_normalization_spec.2.1 true msgC3 [elemNA] elemNA dataNA msgC3 []
      (Value.str "NA") [] rfl rfl rfl
  · exact sentinel_normalization_spec.2.2 true msgC3 [elemNA] elemNA dataNA msgC3 []
      Value.null rfl rfl rfl

/-- C9 counterexample: after a successful serialization, `reset()` followed
by a failed packing leaves `md5()` returning the previous row's hash (the
failed serialization returned `None` bytes), not `None`. -/
theorem md5_after_reset_cex :
    (as_bufr (codecPackInt "err") ((as_bufr (codecBytes [7, 7]) msgT false).2.reset)
        false).1 = .ok Option.none
    ∧ ((as_bufr (codecPackInt "err")
        ((as_bufr (codecBytes [7, 7]) msgT false).2.reset) false).2).md5 = some [7, 7] :=
  ⟨rfl, rfl⟩

/-- C9 amended: `reset()` sets every entry's value to `None` and clears the
cached bytes and warnings but not the cached hash `self._hash`; a successful
serialization sets the hash to the new content hash; a packing failure
leaves it unchanged, so `checksum()` returns the hash of the most recently
successful serialization over the message's lifetime (`None` only if none
has succeeded since construction). -/
theorem reset_md5_spec :
    (∀ m : BUFRMessage, (m.reset).bufr = Option.none ∧ (m.reset).warnings = []
      ∧ (m.reset).hashv = m.hashv
      ∧ ∀ p ∈ (m.reset).dict, p.2.value = Value.null)
    ∧ (∀ (codec : Codec) (m : BUFRMessage) (b : List ℕ), codec m.nonNull = .bytes b →
        (as_bufr codec m false).2.md5 = some (md5_of b)
        ∧ (as_bufr codec m false).1 = .ok (some b))
    ∧ (∀ (codec : Codec) (m : BUFRMessage) (emsg : String),
        codec m.nonNull = .packInternal emsg →
        (as_bufr codec m false).2.md5 = m.md5
        ∧ (as_bufr codec m false).1 = .ok m.bufr) := by
  refine ⟨?_, ?_, ?_⟩
  · intro m
    refine ⟨rfl, rfl, rfl, ?_⟩
    intro p hp
    rw [BUFRMessage.reset] at hp
    simp only [List.mem_map] at hp
    obtain ⟨q, -, hq⟩ := hp
    rw [← hq]
  · intro codec m b hc
    constructor
    · show (match codec m.nonNull with
        | CodecResult.setFail msg => (Except.error ("Error (" ++ msg ++ ") calling codes_set"), m)
        | CodecResult.packInternal msg =>
          (.ok m.bufr, { m with warnings := m.warnings ++
            ["Error (" ++ msg ++ ") calling codes_set(pack, True). Null message returned"] })
        | CodecResult.packFail msg =>
          (.error ("Error (" ++ msg ++ ") calling codes_set(pack, True)"), m)
        | CodecResult.writeFail msg =>
          (.error ("Error (" ++ msg ++ ") writing to internal BytesIO object"), m)
        | CodecResult.bytes b =>
          (.ok (some b), { m with bufr := some b, hashv := some (md5_of b) })).2.md5 = _
      rw [hc]
      rfl
    · show (match codec m.nonNull with
        | CodecResult.setFail msg => (Except.error ("Error (" ++ msg ++ ") calling codes_set"), m)
        | CodecResult.packInternal msg =>
          (.ok m.bufr, { m with warnings := m.warnings ++
            ["Error (" ++ msg ++ ") calling codes_set(pack, True). Null message returned"] })
        | CodecResult.packFail msg =>
          (.error ("Error (" ++ msg ++ ") calling codes_set(pack, True)"), m)
        | CodecResult.writeFail msg =>
          (.error ("Error (" ++ msg ++ ") writing to internal BytesIO object"), m)
        | CodecResult.bytes b =>
          (.ok (some b), { m with bufr := some b, hashv := some (md5_of b) })).1 = _
      rw [hc]
  · intro codec m emsg hc
    constructor
    · show (match codec m.nonNull with
        | CodecResult.setFail msg => (Except.error ("Error (" ++ msg ++ ") calling codes_set"), m)
        | CodecResult.packInternal msg =>
          (.ok m.bufr, { m with warnings := m.warnings ++
            ["Error (" ++ msg ++ ") calling codes_set(pack, True). Null message returned"] })
        | CodecResult.packFail msg =>
          (.error ("Error (" ++ msg ++ ") calling codes_set(pack, True)"), m)
        | CodecResult.writeFail msg =>
          (.error ("Error (" ++ msg ++ ") writing to internal BytesIO object"), m)
        | CodecResult.bytes b =>
          (.ok (some b), { m with bufr := some b, hashv := some (md5_of b) })).2.md5 = _
      rw [hc]
      rfl
    · show (match codec m.nonNull with
        | CodecResult.setFail msg => (Except.error ("Error (" ++ msg ++ ") calling codes_set"), m)
        | CodecResult.packInternal msg =>
          (.ok m.bufr, { m with warnings := m.warnings ++
            ["Error (" ++ msg ++ ") calling codes_set(pack, True). Null message returned"] })
        | CodecResult.packFail msg =>
          (.error ("Error (" ++ msg ++ ") calling codes_set(pack, True)"), m)
        | CodecResult.writeFail msg =>
          (.error ("Error (" ++ msg ++ ") writing to internal BytesIO object"), m)
        | CodecResult.bytes b =>
          (.ok (some b), { m with bufr := some b, hashv := some (md5_of b) })).1 = _
      rw [hc]

/-- Witness for C9 (amended): concrete success and pack-failure codecs. -/
theorem reset_md5_spec_witness :
    ((as_bufr (codecBytes [7, 7]) msgT false).2.md5 = some (md5_of [7, 7])
      ∧ (as_bufr (codecBytes [7, 7]) msgT false).1 = .ok (some [7, 7]))
    ∧ ((as_bufr (codecPackInt "err") msgT false).2.md5 = msgT.md5
      ∧ (as_bufr (codecPackInt "err") msgT false).1 = .ok msgT.bufr) :=
  ⟨reset_md5_spec.2.1 (codecBytes [7, 7]) msgT [7, 7] rfl,
   reset_md5_spec.2.2 (codecPackInt "err") msgT "err" rfl⟩

/-- C6: evaluation at the failing input.  Under the nullify (lenient)
policy, a data row containing a non-ASCII value is *not* skipped: the
"skipping row" warning is recorded but the row is still fully processed and
emitted (here with status `PASSED` and encoded bytes).  Under the strict
policy the batch aborts with the `ValueError`, as the claim states. -/
theorem nonascii_row_not_skipped :
    (transform true (codecBytes [7, 7]) mpT msgT
        [[Value.str "col"], [Value.str "Zürich"]]).1.length = 1
    ∧ (transform true (codecBytes [7, 7]) mpT msgT
        [[Value.str "col"], [Value.str "Zürich"]]).2 = Option.none
    ∧ ((transform true (codecBytes [7, 7]) mpT msgT
        [[Value.str "col"], [Value.str "Zürich"]]).1.headD {}).warnings =
      ["csv read error, non ASCII data detected (Zürich), skipping row"]
    ∧ ((transform true (codecBytes [7, 7]) mpT msgT
        [[Value.str "col"], [Value.str "Zürich"]]).1.headD {}).code = PASSED
    ∧ ((transform true (codecBytes [7, 7]) mpT msgT
        [[Value.str "col"], [Value.str "Zürich"]]).1.headD {}).bufr4 = some [7, 7]
    ∧ (transform false (codecBytes [7, 7]) mpT msgT
        [[Value.str "col"], [Value.str "Zürich"]]) =
      ([], some "csv read error, non ASCII data detected") :=
  ⟨rfl, rfl, rfl, rfl, rfl, rfl⟩

/-- C7 counterexample: under the lenient policy, a CSV input with two data
rows whose first row has a malformed WIGOS identifier yields *zero* results
and aborts the batch — not one result per data row. -/
theorem transform_wsi_abort_cex :
    (transform true (codecBytes [7, 7]) mpW msgT
        [[Value.str "wsi"], [Value.str "badwsi"], [Value.str "0-1-2-3"]]) =
      ([], some "Error (unpack) parsing WIGOS station identifier") := rfl

/-- The `try` block always yields a row result: `PASSED`, or `FAILED` with a
non-empty error list. -/
theorem row_try_shape (nullify : Bool) (codec : Codec) (mp : Mappings) (wsi : String)
    (d : Row) (g1 : List String) (m1 : BUFRMessage) :
    (row_try nullify codec mp wsi d g1 m1).1.code = PASSED
    ∨ ((row_try nullify codec mp wsi d g1 m1).1.code = FAILED
       ∧ (row_try nullify codec mp wsi d g1 m1).1.errors ≠ []) := by
  unfold row_try
  split
  · exact Or.inr ⟨rfl, by simp [failedResult]⟩
  · split
    · exact Or.inr ⟨rfl, by simp [failedResult]⟩
    · split
      · exact Or.inr ⟨rfl, by simp [failedResult]⟩
      · split
        · exact Or.inr ⟨rfl, by simp [failedResult]⟩
        · split
          · exact Or.inr ⟨rfl, by simp [failedResult]⟩
          · split
            · exact Or.inr ⟨rfl, by simp [failedResult]⟩
            · split
              · exact Or.inr ⟨rfl, by simp [failedResult]⟩
              · split
                · exact Or.inr ⟨rfl, by simp [failedResult]⟩
                · exact Or.inl rfl

/-- Under the nullify policy, a row whose WIGOS extraction succeeds is
always processed through the `try` block and emitted. -/
theorem process_row_lenient_eq (codec : Codec) (mp : Mappings) (cfg : WsiCfg)
    (col_names : List String) (m : BUFRMessage) (g : List String) (row : List Value)
    (wsi : String) (d : Row) (wW : List String)
    (hw : extract_wsi true cfg (mkDict col_names row) = (.ok (wsi, d), wW)) :
    process_row true codec mp cfg col_names m g row =
      (.ok (row_try true codec mp wsi d ((g ++ ascii_warnings row) ++ wW) m.reset).1,
       (row_try true codec mp wsi d ((g ++ ascii_warnings row) ++ wW) m.reset).2) := by
  simp only [process_row, Bool.not_true, Bool.false_and, Bool.false_eq_true, if_false, hw,
    if_true]

/-- Under the nullify policy, a row with a valid WIGOS identifier always
yields one emitted result. -/
theorem process_row_lenient_ok (codec : Codec) (mp : Mappings) (cfg : WsiCfg)
    (col_names : List String) (m : BUFRMessage) (g : List String) (row : List Value)
    (h : (extract_wsi true cfg (mkDict col_names row)).1.isOk = true) :
    ∃ r m2, process_row true codec mp cfg col_names m g row = (.ok r, m2)
      ∧ (r.code = PASSED ∨ (r.code = FAILED ∧ r.errors ≠ [])) := by
  rcases hw : extract_wsi true cfg (mkDict col_names row) with ⟨wres, wW⟩
  cases wres with
  | error e =>
    rw [hw] at h
    exact absurd h (by simp [Except.isOk, Except.toBool])
  | ok p =>
    obtain ⟨wsi, d⟩ := p
    exact ⟨_, _, process_row_lenient_eq codec mp cfg col_names m g row wsi d wW hw,
      row_try_shape true codec mp wsi d ((g ++ ascii_warnings row) ++ wW) m.reset⟩

/-- The row loop under the nullify policy: one result per row, no abort,
each result `PASSED` or `FAILED` with errors. -/
theorem run_rows_lenient (codec : Codec) (mp : Mappings) (cfg : WsiCfg)
    (col_names : List String) :
    ∀ (rows : List (List Value)) (m : BUFRMessage) (g : List String),
    (∀ row ∈ rows, (extract_wsi true cfg (mkDict col_names row)).1.isOk = true) →
    (run_rows true codec mp cfg col_names m g rows).2 = Option.none
    ∧ (run_rows true codec mp cfg col_names m g rows).1.length = rows.length
    ∧ ∀ r ∈ (run_rows true codec mp cfg col_names m g rows).1,
        r.code = PASSED ∨ (r.code = FAILED ∧ r.errors ≠ []) := by
  intro rows
  induction rows with
  | nil =>
    intro m g hall
    exact ⟨rfl, rfl, by simp [run_rows]⟩
  | cons row rest ih =>
    intro m g hall
    obtain ⟨r, m2, heq, hshape⟩ := process_row_lenient_ok codec mp cfg col_names m g row
      (hall row (by simp))
    have hrest := ih m2 [] (fun rr hr => hall rr (by simp [hr]))
    rcases hrr : run_rows true codec mp cfg col_names m2 [] rest with ⟨rs, err⟩
    rw [hrr] at hrest
    have hstep : run_rows true codec mp cfg col_names m g (row :: rest) = (r :: rs, err) := by
      unfold run_rows
      rw [heq]
      simp only [hrr]
    rw [hstep]
    refine ⟨hrest.1, ?_, ?_⟩
    · simp [hrest.2.1]
    · intro r2 hr2
      rcases List.mem_cons.mp hr2 with h2 | h2
      · rw [h2]
        exact hshape
      · exact hrest.2.2 r2 h2

/-- C7 amended: under the lenient policy, provided every data row's WIGOS
identifier extraction succeeds, the transform yields exactly one result per
data row (the single header row excluded), in input order, with every
per-row failure row-scoped (`FAILED` with non-empty errors, batch not
aborted).  A row whose WIGOS extraction fails aborts the batch even under
the lenient policy (see the counterexample). -/
theorem transform_lenient_per_row (codec : Codec) (mp : Mappings) (m : BUFRMessage)
    (cfg : WsiCfg) (hdr : List Value) (dataRows : List (List Value))
    (h1 : wsi_setup mp = .ok cfg)
    (h2 : mp.number_header_rows = 1) (h3 : mp.column_names_row = 1)
    (hall : ∀ row ∈ dataRows,
      (extract_wsi true cfg (mkDict (hdr.map pyStr) row)).1.isOk = true) :
    (transform true codec mp m (hdr :: dataRows)).2 = Option.none
    ∧ (transform true codec mp m (hdr :: dataRows)).1.length = dataRows.length
    ∧ ∀ r ∈ (transform true codec mp m (hdr :: dataRows)).1,
        r.code = PASSED ∨ (r.code = FAILED ∧ r.errors ≠ []) := by
  have hred : transform true codec mp m (hdr :: dataRows) =
      run_rows true codec mp cfg (hdr.map pyStr) m (setup_warnings mp) dataRows := by
    unfold transform
    rw [h1]
    simp only [h2, h3]
    rw [if_neg (by simp)]
    rfl
  rw [hred]
  exact run_rows_lenient codec mp cfg (hdr.map pyStr) dataRows m (setup_warnings mp) hall

/-- Witness for C7 (amended) at a concrete template with one header row and
two data rows, one of which fails to parse nothing (both pass WSI). -/
theorem transform_lenient_per_row_witness :
    (transform true (codecBytes [7, 7]) mpT msgT
        [[Value.str "col"], [Value.str "x"], [Value.str "y"]]).2 = Option.none
    ∧ (transform true (codecBytes [7, 7]) mpT msgT
        [[Value.str "col"], [Value.str "x"], [Value.str "y"]]).1.length =
        [[Value.str "x"], [Value.str "y"]].length
    ∧ ∀ r ∈ (transform true (codecBytes [7, 7]) mpT msgT
        [[Value.str "col"], [Value.str "x"], [Value.str "y"]]).1,
        r.code = PASSED ∨ (r.code = FAILED ∧ r.errors ≠ []) :=
  transform_lenient_per_row (codecBytes [7, 7]) mpT msgT
    (WsiCfg.constWsi "0-20000-0-123") [Value.str "col"]
    [[Value.str "x"], [Value.str "y"]] rfl rfl rfl
    (by
      intro row hr
      rcases List.mem_cons.mp hr with h | h
      · rw [h]
        rfl
      · rcases List.mem_cons.mp h with h2 | h2
        · rw [h2]
          rfl
        · exact absurd h2 (by simp))

/-- `set_element` never touches the cached bytes or hash. -/
theorem set_element_preserves {nfy : Bool} {m : BUFRMessage} {k : String} {v : Value}
    {m2 : BUFRMessage} (h : set_element nfy m k v = .ok m2) :
    m2.bufr = m.bufr ∧ m2.hashv = m.hashv := by
  unfold set_element at h
  split at h
  · exact absurd h (by simp)
  · split at h
    · rename_i cv w heq
      have h2 := (Except.ok.injEq _ _).mp h
      rw [← h2]
      exact ⟨rfl, rfl⟩
    · exact absurd h (by simp)

/-- `parse_element` never touches the cached bytes or hash. -/
theorem parse_element_preserves (nfy : Bool) (m : BUFRMessage) (mapping : List FieldSpec)
    (elem : FieldSpec) (data : Row) :
    (parse_element nfy m mapping elem data).2.1.bufr = m.bufr
    ∧ (parse_element nfy m mapping elem data).2.1.hashv = m.hashv := by
  rcases hg : get_ nfy elem.eccodes_key mapping (some data) with ⟨r0, w0⟩
  cases r0 with
  | error e =>
    have hu : parse_element nfy m mapping elem data = (.error e, m, w0) := by
      unfold parse_element
      simp only [hg]
    rw [hu]
    exact ⟨rfl, rfl⟩
  | ok v0 =>
    cases hcv : convert_stage m elem.eccodes_key v0 with
    | error e =>
      have hu : parse_element nfy m mapping elem data = (.error e, m, w0) := by
        unfold parse_element
        simp only [hg, hcv]
      rw [hu]
      exact ⟨rfl, rfl⟩
    | ok v1 =>
      rcases hmn : resolve_opt nfy elem.valid_min data with ⟨rmn, w1⟩
      cases rmn with
      | error e =>
        have hu : parse_element nfy m mapping elem data = (.error e, m, w0 ++ w1) := by
          unfold parse_element
          simp only [hg, hcv, hmn]
        rw [hu]
        exact ⟨rfl, rfl⟩
      | ok vmin =>
        rcases hmx : resolve_opt nfy elem.valid_max data with ⟨rmx, w2⟩
        cases rmx with
        | error e =>
          have hu : parse_element nfy m mapping elem data =
              (.error e, m, w0 ++ w1 ++ w2) := by
            unfold parse_element
            simp only [hg, hcv, hmn, hmx]
          rw [hu]
          exact ⟨rfl, rfl⟩
        | ok vmax =>
          rcases hvs : validation_stage nfy elem.eccodes_key v1 vmin vmax with ⟨rv, wg, wm⟩
          cases rv with
          | error e =>
            have hu : parse_element nfy m mapping elem data =
                (.error e, m, w0 ++ w1 ++ w2 ++ wg) := by
              unfold parse_element
              simp only [hg, hcv, hmn, hmx, hvs]
            rw [hu]
            exact ⟨rfl, rfl⟩
          | ok v2 =>
            rcases hss : scaling_stage nfy elem data v2 with ⟨rs, ws⟩
            cases rs with
            | error e =>
              have hu : parse_element nfy m mapping elem data =
                  (.error e, { m with warnings := m.warnings ++ wm },
                   w0 ++ w1 ++ w2 ++ wg ++ ws) := by
                unfold parse_element
                simp only [hg, hcv, hmn, hmx, hvs, hss]
              rw [hu]
              exact ⟨rfl, rfl⟩
            | ok v3 =>
              cases hse : set_element nfy { m with warnings := m.warnings ++ wm }
                  elem.eccodes_key v3 with
              | error e =>
                have hu : parse_element nfy m mapping elem data =
                    (.error e, { m with warnings := m.warnings ++ wm },
                     w0 ++ w1 ++ w2 ++ wg ++ ws) := by
                  unfold parse_element
                  simp only [hg, hcv, hmn, hmx, hvs, hss, hse]
                rw [hu]
                exact ⟨rfl, rfl⟩
              | ok m2 =>
                have hu : parse_element nfy m mapping elem data =
                    (.ok (), m2, w0 ++ w1 ++ w2 ++ wg ++ ws) := by
                  unfold parse_element
                  simp only [hg, hcv, hmn, hmx, hvs, hss, hse]
                rw [hu]
                have hp := set_element_preserves hse
                exact ⟨hp.1, hp.2⟩

/-- `parse_elements` never touches the cached bytes or hash. -/
theorem parse_elements_preserves (nfy : Bool) (mapping : List FieldSpec) (data : Row) :
    ∀ (es : List FieldSpec) (m : BUFRMessage),
    (parse_elements nfy mapping data m es).2.1.bufr = m.bufr
    ∧ (parse_elements nfy mapping data m es).2.1.hashv = m.hashv := by
  intro es
  induction es with
  | nil =>
    intro m
    exact ⟨rfl, rfl⟩
  | cons e es ih =>
    intro m
    have hp := parse_element_preserves nfy m mapping e data
    rcases hpe : parse_element nfy m mapping e data with ⟨r, m1, w⟩
    rw [hpe] at hp
    cases r with
    | error err =>
      have hu : parse_elements nfy mapping data m (e :: es) = (.error err, m1, w) := by
        unfold parse_elements
        simp only [hpe]
      rw [hu]
      exact hp
    | ok u =>
      have ih1 := ih m1
      rcases hrest : parse_elements nfy mapping data m1 es with ⟨r2, m2, w2⟩
      rw [hrest] at ih1
      have hu : parse_elements nfy mapping data m (e :: es) = (r2, m2, w ++ w2) := by
        unfold parse_elements
        simp only [hpe, hrest]
      rw [hu]
      exact ⟨ih1.1.trans hp.1, ih1.2.trans hp.2⟩

/-- `parse` never touches the cached bytes or hash. -/
theorem parse_preserves (nfy : Bool) (m : BUFRMessage) (data : Row) (mp : Mappings) :
    (BUFRMessage.parse nfy m data mp).2.1.bufr = m.bufr
    ∧ (BUFRMessage.parse nfy m data mp).2.1.hashv = m.hashv := by
  unfold BUFRMessage.parse
  rcases h1 : parse_elements nfy mp.header data m mp.header with ⟨r1, m1, w1⟩
  have hp1 := parse_elements_preserves nfy mp.header data mp.header m
  rw [h1] at hp1
  cases r1 with
  | error e =>
    simp only [h1]
    exact hp1
  | ok u =>
    rcases h2 : parse_elements nfy mp.data data m1 mp.data with ⟨r2, m2, w2⟩
    have hp2 := parse_elements_preserves nfy mp.data data mp.data m1
    rw [h2] at hp2
    simp only [h1, h2]
    exact ⟨hp2.1.trans hp1.1, hp2.2.trans hp1.2⟩

/-- `get_element` only appends warnings: dict, bytes and hash unchanged. -/
theorem get_element_state (nfy : Bool) (m : BUFRMessage) (k : String) :
    (get_element nfy m k).2.dict = m.dict
    ∧ (get_element nfy m k).2.bufr = m.bufr
    ∧ (get_element nfy m k).2.hashv = m.hashv := by
  unfold get_element
  split
  · exact ⟨rfl, rfl, rfl⟩
  · split
    · exact ⟨rfl, rfl, rfl⟩
    · exact ⟨rfl, rfl, rfl⟩

/-- The value returned by `get_element` depends only on the dict. -/
theorem get_element_val (nfy : Bool) {m m2 : BUFRMessage} (k : String)
    (h : m.dict = m2.dict) :
    (get_element nfy m k).1 = (get_element nfy m2 k).1 := by
  unfold get_element
  rw [h]
  split
  · rfl
  · split
    · rfl
    · rfl

/-- Under the nullify policy, `get_element` always returns a value. -/
theorem get_element_lenient (m : BUFRMessage) (k : String) :
    ∃ v m2, get_element true m k = (.ok v, m2) := by
  unfold get_element
  split
  · exact ⟨_, _, rfl⟩
  · exact ⟨_, _, rfl⟩

/-- `getElems` only appends warnings: dict, bytes and hash unchanged. -/
theorem getElems_state (nfy : Bool) :
    ∀ (ks : List String) (m : BUFRMessage),
    (getElems nfy m ks).2.dict = m.dict
    ∧ (getElems nfy m ks).2.bufr = m.bufr
    ∧ (getElems nfy m ks).2.hashv = m.hashv := by
  intro ks
  induction ks with
  | nil =>
    intro m
    exact ⟨rfl, rfl, rfl⟩
  | cons k ks ih =>
    intro m
    have hg := get_element_state nfy m k
    rcases hge : get_element nfy m k with ⟨r, m1⟩
    rw [hge] at hg
    cases r with
    | error e =>
      have hu : getElems nfy m (k :: ks) = (.error e, m1) := by
        unfold getElems
        simp only [hge]
      rw [hu]
      exact hg
    | ok v =>
      have ih1 := ih m1
      rcases hrest : getElems nfy m1 ks with ⟨r2, m2⟩
      rw [hrest] at ih1
      cases r2 with
      | ok vs =>
        have hu : getElems nfy m (k :: ks) = (.ok (v :: vs), m2) := by
          unfold getElems
          simp only [hge, hrest]
        rw [hu]
        exact ⟨ih1.1.trans hg.1, ih1.2.1.trans hg.2.1, ih1.2.2.trans hg.2.2⟩
      | error e =>
        have hu : getElems nfy m (k :: ks) = (.error e, m2) := by
          unfold getElems
          simp only [hge, hrest]
        rw [hu]
        exact ⟨ih1.1.trans hg.1, ih1.2.1.trans hg.2.1, ih1.2.2.trans hg.2.2⟩

/-- The values returned by `getElems` depend only on the dict. -/
theorem getElems_val (nfy : Bool) :
    ∀ (ks : List String) {m m2 : BUFRMessage}, m.dict = m2.dict →
    (getElems nfy m ks).1 = (getElems nfy m2 ks).1 := by
  intro ks
  induction ks with
  | nil =>
    intro m m2 h
    rfl
  | cons k ks ih =>
    intro m m2 h
    rcases hge : get_element nfy m k with ⟨r, m1⟩
    rcases hge2 : get_element nfy m2 k with ⟨r2, m12⟩
    have hv : r = r2 := by
      have hval := get_element_val nfy k h
      rw [hge, hge2] at hval
      exact hval
    subst hv
    have hd1 : m1.dict = m12.dict := by
      have g1 := get_element_state nfy m k
      have g2 := get_element_state nfy m2 k
      rw [hge] at g1
      rw [hge2] at g2
      rw [g1.1, g2.1, h]
    cases r with
    | error e =>
      have e1 : getElems nfy m (k :: ks) = (.error e, m1) := by
        unfold getElems
        simp only [hge]
      have e2 : getElems nfy m2 (k :: ks) = (.error e, m12) := by
        unfold getElems
        simp only [hge2]
      rw [e1, e2]
    | ok v =>
      have hrec := ih hd1
      rcases h1 : getElems nfy m1 ks with ⟨rr, mm⟩
      rcases h2 : getElems nfy m12 ks with ⟨rr2, mm2⟩
      rw [h1, h2] at hrec
      have hvv : rr = rr2 := hrec
      subst hvv
      cases rr with
      | ok vs =>
        have e1 : getElems nfy m (k :: ks) = (.ok (v :: vs), mm) := by
          unfold getElems
          simp only [hge, h1]
        have e2 : getElems nfy m2 (k :: ks) = (.ok (v :: vs), mm2) := by
          unfold getElems
          simp only [hge2, h2]
        rw [e1, e2]
      | error e =>
        have e1 : getElems nfy m (k :: ks) = (.error e, mm) := by
          unfold getElems
          simp only [hge, h1]
        have e2 : getElems nfy m2 (k :: ks) = (.error e, mm2) := by
          unfold getElems
          simp only [hge2, h2]
        rw [e1, e2]

/-- `get_datetime` only appends warnings: dict and bytes unchanged. -/
theorem get_datetime_state (nfy : Bool) (m : BUFRMessage) :
    (get_datetime nfy m).2.dict = m.dict ∧ (get_datetime nfy m).2.bufr = m.bufr := by
  rcases h1 : getElems nfy m DT_KEYS with ⟨r1, n1⟩
  have g1 := getElems_state nfy DT_KEYS m
  rw [h1] at g1
  cases r1 with
  | error e =>
    have e1 : get_datetime nfy m = (.error e, n1) := by
      unfold get_datetime
      simp only [h1]
    rw [e1]
    exact ⟨g1.1, g1.2.1⟩
  | ok vs =>
    by_cases hn : vs.contains Value.null = true
    · have e1 : get_datetime nfy m = (.error "Error: invalid datetime", n1) := by
        unfold get_datetime
        simp only [h1]
        rw [if_pos hn]
      rw [e1]
      exact ⟨g1.1, g1.2.1⟩
    · rcases k1 : getElems nfy n1 DT_KEYS with ⟨s1, p1⟩
      have g2 := getElems_state nfy DT_KEYS n1
      rw [k1] at g2
      cases s1 with
      | error e =>
        have e1 : get_datetime nfy m = (.error e, p1) := by
          unfold get_datetime
          simp only [h1]
          rw [if_neg hn]
          simp only [k1]
        rw [e1]
        exact ⟨g2.1.trans g1.1, g2.2.1.trans g1.2.1⟩
      | ok vs2 =>
        have e1 : get_datetime nfy m = (mkDT_of vs2, p1) := by
          unfold get_datetime
          simp only [h1]
          rw [if_neg hn]
          simp only [k1]
        rw [e1]
        exact ⟨g2.1.trans g1.1, g2.2.1.trans g1.2.1⟩

/-- The value returned by `get_datetime` depends only on the dict. -/
theorem get_datetime_val (nfy : Bool) {m m2 : BUFRMessage} (h : m.dict = m2.dict) :
    (get_datetime nfy m).1 = (get_datetime nfy m2).1 := by
  rcases h1 : getElems nfy m DT_KEYS with ⟨r1, n1⟩
  rcases h2 : getElems nfy m2 DT_KEYS with ⟨r2, n2⟩
  have hv : r1 = r2 := by
    have hh := getElems_val nfy DT_KEYS h
    rw [h1, h2] at hh
    exact hh
  subst hv
  have hd : n1.dict = n2.dict := by
    have g1 := getElems_state nfy DT_KEYS m
    have g2 := getElems_state nfy DT_KEYS m2
    rw [h1] at g1
    rw [h2] at g2
    rw [g1.1, g2.1, h]
  cases r1 with
  | error e =>
    have e1 : get_datetime nfy m = (.error e, n1) := by
      unfold get_datetime
      simp only [h1]
    have e2 : get_datetime nfy m2 = (.error e, n2) := by
      unfold get_datetime
      simp only [h2]
    rw [e1, e2]
  | ok vs =>
    by_cases hn : vs.contains Value.null = true
    · have e1 : get_datetime nfy m = (.error "Error: invalid datetime", n1) := by
        unfold get_datetime
        simp only [h1]
        rw [if_pos hn]
      have e2 : get_datetime nfy m2 = (.error "Error: invalid datetime", n2) := by
        unfold get_datetime
        simp only [h2]
        rw [if_pos hn]
      rw [e1, e2]
    · rcases k1 : getElems nfy n1 DT_KEYS with ⟨s1, p1⟩
      rcases k2 : getElems nfy n2 DT_KEYS with ⟨s2, p2⟩
      have hs : s1 = s2 := by
        have hh := getElems_val nfy DT_KEYS hd
        rw [k1, k2] at hh
        exact hh
      subst hs
      cases s1 with
      | error e =>
        have e1 : get_datetime nfy m = (.error e, p1) := by
          unfold get_datetime
          simp only [h1]
          rw [if_neg hn]
          simp only [k1]
        have e2 : get_datetime nfy m2 = (.error e, p2) := by
          unfold get_datetime
          simp only [h2]
          rw [if_neg hn]
          simp only [k2]
        rw [e1, e2]
      | ok vs2 =>
        have e1 : get_datetime nfy m = (mkDT_of vs2, p1) := by
          unfold get_datetime
          simp only [h1]
          rw [if_neg hn]
          simp only [k1]
        have e2 : get_datetime nfy m2 = (mkDT_of vs2, p2) := by
          unfold get_datetime
          simp only [h2]
          rw [if_neg hn]
          simp only [k2]
        rw [e1, e2]

/-- A codec-internal packing error is caught: the cached bytes are returned
and only a warning is recorded. -/
theorem as_bufr_packInternal {codec : Codec} {m : BUFRMessage} {emsg : String}
    (hc : codec m.nonNull = .packInternal emsg) :
    as_bufr codec m false =
      (.ok m.bufr, { m with warnings := m.warnings ++
        ["Error (" ++ emsg ++ ") calling codes_set(pack, True). Null message returned"] }) := by
  unfold as_bufr
  rw [hc]
  rfl

/-- When the codec reports an internal packing error, the `try` block of the
row loop still completes: the emitted row carries the pre-encoding cached
bytes, status `PASSED`, no errors, and the pack error among the warnings. -/
theorem row_try_packInternal (codec : Codec) (mp : Mappings) (wsi : String) (d : Row)
    (g1 : List String) (m1 m2 : BUFRMessage) (gp : List String) (emsg : String)
    (dt : ℤ × ℤ × ℤ × ℤ × ℤ)
    (hp : BUFRMessage.parse true m1 d mp = (.ok (), m2, gp))
    (hc : codec m2.nonNull = .packInternal emsg)
    (hd : (get_datetime true m2).1 = .ok dt) :
    (row_try true codec mp wsi d g1 m1).1.bufr4 = m1.bufr
    ∧ (row_try true codec mp wsi d g1 m1).1.code = PASSED
    ∧ (row_try true codec mp wsi d g1 m1).1.errors = []
    ∧ ("Error (" ++ emsg ++ ") calling codes_set(pack, True). Null message returned")
        ∈ (row_try true codec mp wsi d g1 m1).1.warnings := by
  have hpb := parse_preserves true m1 d mp
  rw [hp] at hpb
  set m3 : BUFRMessage := { m2 with warnings := m2.warnings ++
    ["Error (" ++ emsg ++ ") calling codes_set(pack, True). Null message returned"] } with hm3
  have hab : as_bufr codec m2 false = (.ok m2.bufr, m3) := by
    rw [hm3]
    exact as_bufr_packInternal hc
  have hdict3 : m3.dict = m2.dict := by rw [hm3]
  have hd3 : (get_datetime true m3).1 = .ok dt := by
    rw [get_datetime_val true hdict3]
    exact hd
  rcases hgd : get_datetime true m3 with ⟨rdt, m4⟩
  rw [hgd] at hd3
  have hrdt : rdt = .ok dt := hd3
  subst hrdt
  obtain ⟨lon, m5, hlon⟩ := get_element_lenient m4 "#1#longitude"
  obtain ⟨lat, m6, hlat⟩ := get_element_lenient m5 "#1#latitude"
  have hd6 : (get_datetime true m6).1 = .ok dt := by
    have e1 := get_datetime_state true m3
    rw [hgd] at e1
    have e2 := get_element_state true m4 "#1#longitude"
    rw [hlon] at e2
    have e3 := get_element_state true m5 "#1#latitude"
    rw [hlat] at e3
    have hdict : m6.dict = m2.dict := by rw [e3.1, e2.1, e1.1, hdict3]
    rw [get_datetime_val true hdict]
    exact hd
  rcases hgd2 : get_datetime true m6 with ⟨rdt2, m7⟩
  rw [hgd2] at hd6
  have hrdt2 : rdt2 = .ok dt := hd6
  subst hrdt2
  obtain ⟨oc, m8, hoc⟩ := get_element_lenient m7 "bufrHeaderCentre"
  obtain ⟨dc, m9, hdc⟩ := get_element_lenient m8 "dataCategory"
  have hu : row_try true codec mp wsi d g1 m1 =
    ({ bufr4 := m2.bufr, code := PASSED, message := "",
       errors := [], warnings := m3.warnings ++ (g1 ++ gp),
       id := some ("WIGOS_" ++ wsi ++ "_" ++ isoCompact dt),
       longitude := lon, latitude := lat,
       md5 := m3.md5, wigos_station_identifier := some wsi,
       datetime := some dt, originating_centre := oc,
       data_category := dc }, m9) := by
    unfold row_try
    simp only [hp, hab, hgd, hlon, hlat, hgd2, hoc, hdc]
  rw [hu]
  refine ⟨hpb.1, rfl, rfl, ?_⟩
  rw [hm3]
  simp

/-- C10: when packing raises a codec-internal error, serialization
(`as_bufr`) does not raise: it records a warning and returns the cached
bytes — `None` after the per-row `reset` — so the transform's row loop
emits that row with status code `PASSED` (not `FAILED`), `bufr4 = None`,
empty errors, and the pack error visible only in the row's warnings. -/
theorem pack_internal_passed (codec : Codec) (mp : Mappings) (cfg : WsiCfg)
    (col_names : List String) (m m2 : BUFRMessage) (g gp wW : List String)
    (row : List Value) (wsi : String) (d : Row) (emsg : String)
    (dt : ℤ × ℤ × ℤ × ℤ × ℤ)
    (hw : extract_wsi true cfg (mkDict col_names row) = (.ok (wsi, d), wW))
    (hp : BUFRMessage.parse true m.reset d mp = (.ok (), m2, gp))
    (hc : codec m2.nonNull = .packInternal emsg)
    (hd : (get_datetime true m2).1 = .ok dt) :
    ∃ r m9, process_row true codec mp cfg col_names m g row = (.ok r, m9)
      ∧ r.bufr4 = Option.none ∧ r.code = PASSED ∧ r.errors = []
      ∧ ("Error (" ++ emsg ++ ") calling codes_set(pack, True). Null message returned")
          ∈ r.warnings := by
  have heq := process_row_lenient_eq codec mp cfg col_names m g row wsi d wW hw
  have hrt := row_try_packInternal codec mp wsi d ((g ++ ascii_warnings row) ++ wW)
    m.reset m2 gp emsg dt hp hc hd
  refine ⟨_, _, heq, ?_, hrt.2.1, hrt.2.2.1, hrt.2.2.2⟩
  rw [hrt.1]
  rfl

theorem pack_internal_passed_witness :
    ∃ r m9, process_row true (codecPackInt "boom") mpT (WsiCfg.constWsi "0-20000-0-123")
        ["col"] msgT [] [Value.str "x"] = (.ok r, m9)
      ∧ r.bufr4 = Option.none ∧ r.code = PASSED ∧ r.errors = []
      ∧ ("Error (" ++ "boom" ++ ") calling codes_set(pack, True). Null message returned")
          ∈ r.warnings :=
  pack_internal_passed (codecPackInt "boom") mpT (WsiCfg.constWsi "0-20000-0-123")
    ["col"] msgT msgTset [] [] [] [Value.str "x"] "0-20000-0-123" dW "boom"
    (2023, 1, 2, 3, 4) (by rfl) (by rfl) (by rfl) (by rfl)

end Csv2Bufr
